import Mathlib

/-!
Shallow embedding of the dynamic memory manager of this repository
(src/lab-3-memory/src/memmgr.c) and proofs about it.

Modelling conventions:
* A heap word (C type `unsigned long`, 8 bytes) is a `Nat`; every value that
  the program ever stores is far below 2 ^ 64, so `Nat` arithmetic agrees
  with the C `size_t`/`unsigned long` arithmetic on all states considered
  here (guard hypotheses rule out the wrap-around cases).
* Memory is a word map indexed by byte address, represented first-order as
  the journal of all writes; `GET` returns the most recent write to an
  address, and a read of an address that was never written yields 0 (the
  data-segment provider hands out fresh zero pages).  The program only
  ever reads and writes 8-byte-aligned addresses.
* `PUT`/`GET`, `SIZE`/`STATUS`/`PACK` and the block-navigation arithmetic
  are translated macro by macro from memmgr.c; the allocator operations are
  translated statement by statement, re-reading memory exactly where the C
  macros re-read it.
* The data-segment provider (dataseg module) is not part of the sources;
  following the spec it is an external collaborator that can extend or
  shrink the range at its high end and can fail when exhausted.  It is
  modelled by the fields `ds_start`, `ds_brk`, `ds_cap` and `ds_sbrk`.
* C loops become fuel-indexed recursions returning `none` when the fuel is
  exhausted, so a diverging loop is distinguishable from a normal return.
-/

/-- allocation policies, as in memmgr.h / mm_init -/
inductive AllocationPolicy where
  | ap_FirstFit : AllocationPolicy
  | ap_NextFit : AllocationPolicy
  | ap_BestFit : AllocationPolicy
deriving DecidableEq

/-- heap memory: a word-granular map from byte addresses to word values,
    kept as the journal of all writes (most recent first) so that states
    are first-order data; an address never written reads as 0 -/
def Mem : Type := List (Nat × Nat)

/-- TYPE_SIZE: size of the heap word type (8 bytes) -/
def TYPE_SIZE : Nat := 8

/-- ALLOC status flag -/
def ALLOC : Nat := 1

/-- FREE status flag -/
def FREE : Nat := 0

/-- BS: minimal block size (32 bytes) -/
def BS : Nat := 32

/-- CHUNKSIZE: minimal data segment allocation unit (1 &lt;&lt; 10) -/
def CHUNKSIZE : Nat := 1024

/-- SHRINKTHLD: threshold to shrink the heap (1 &lt;&lt; 10) -/
def SHRINKTHLD : Nat := 1024

/-- SIZE(v) = v &amp; SIZE_MASK: clear the three status bits.  For `Nat` this is
    v - v % 8, which agrees with the 64-bit mask for every value below 2^64. -/
def SIZE (v : Nat) : Nat := v - v % 8

/-- STATUS(v) = v &amp; STATUS_MASK: the low three bits -/
def STATUS (v : Nat) : Nat := v % 8

/-- PACK(size, status) = size | status -/
def PACK (size status : Nat) : Nat := size ||| status

/-- PUT(p, v): write word v at byte address p -/
def PUT (m : Mem) (p v : Nat) : Mem := (p, v) :: m

/-- GET(p): read the word at byte address p (the most recent write to p,
    or 0 when p was never written) -/
def GET : Mem → Nat → Nat
  | [], _ => 0
  | (q, v) :: rest, p => if p = q then v else GET rest p

/-- ROUND_UP(w): round w up to a multiple of the minimal block size -/
def ROUND_UP (w : Nat) : Nat := (w + BS - 1) / BS * BS

/-- MAX macro -/
def MAX (a b : Nat) : Nat := if b < a then a else b

/-- SIZE_MAX for the 64-bit size_t, used by bf_get_free_block -/
def SIZE_MAX64 : Nat := 2 ^ 64 - 1

/-- the allocator state: the word memory, the provider bounds, the logical
    heap bounds, the next-fit cursor and the selected policy.
    Modelled from the spec: the provider is summarized by its start, its
    current break and a capacity `ds_cap` beyond which `ds_sbrk` fails. -/
structure MMState where
  mem : Mem
  ds_start : Nat
  ds_brk : Nat
  ds_cap : Nat
  heap_start : Nat
  heap_end : Nat
  next_block : Option Nat
  policy : AllocationPolicy

/-- Modelled from the spec: ds_sbrk extends or shrinks the data segment at
    its high end by a signed byte delta and fails (returning the failure
    indicator, with the break unchanged) when the request leaves the
    provider's feasible range. -/
def ds_sbrk (s : MMState) (delta : Int) : Option MMState :=
  let nb : Int := Int.ofNat s.ds_brk + delta
  if Int.ofNat s.ds_start ≤ nb ∧ nb ≤ Int.ofNat s.ds_cap then
    some { s with ds_brk := nb.toNat }
  else
    none

/-- ff_get_free_block's scan loop (memmgr.c lines 482-490), fuel-indexed;
    `none` means the fuel ran out (the C loop did not terminate within
    `fuel` iterations), `some r` is the C return value. -/
def ff_scan (m : Mem) (heap_end size : Nat) : Nat → Nat → Option (Option Nat)
  | 0, _ => none
  | fuel + 1, cur =>
    if cur < heap_end then
      if STATUS (GET m cur) = FREE ∧ size ≤ SIZE (GET m cur) then
        some (some cur)
      else
        ff_scan m heap_end size fuel (cur + SIZE (GET m cur))
    else
      some none

/-- first fit: linear scan from heap_start for a free block of at least
    `size` bytes -/
def ff_get_free_block (s : MMState) (size fuel : Nat) : Option (Option Nat) :=
  ff_scan s.mem s.heap_end size fuel s.heap_start

/-- nf_get_free_block's scan loop (memmgr.c lines 511-526): check the block
    at the cursor, advance, wrap at heap_end, stop after one full cycle.
    Returns (result, final cursor value); `none` means fuel ran out. -/
def nf_scan (m : Mem) (heap_start heap_end initial size : Nat) :
    Nat → Nat → Option (Option Nat × Nat)
  | 0, _ => none
  | fuel + 1, cur =>
    if STATUS (GET m cur) = FREE ∧ size ≤ SIZE (GET m cur) then
      some (some cur, cur)
    else
      let c1 := cur + SIZE (GET m cur)
      let c2 := if heap_end ≤ c1 then heap_start else c1
      if c2 = initial then
        some (none, c2)
      else
        nf_scan m heap_start heap_end initial size fuel c2

/-- next fit: scan from the persistent cursor (reset to heap_start when the
    cursor is NULL or at/after heap_end), wrapping once.  Returns the C
    return value together with the new cursor value. -/
def nf_get_free_block (s : MMState) (size fuel : Nat) :
    Option (Option Nat × Option Nat) :=
  let start :=
    match s.next_block with
    | none => s.heap_start
    | some c => if s.heap_end ≤ c then s.heap_start else c
  match nf_scan s.mem s.heap_start s.heap_end start size fuel start with
  | none => none
  | some (r, cur) => some (r, some cur)

/-- bf_get_free_block's scan loop (memmgr.c lines 547-562): full scan
    keeping the candidate with the smallest difference, early exit on an
    exact fit. -/
def bf_scan (m : Mem) (heap_end size : Nat) :
    Nat → Nat → Option Nat → Nat → Option (Option Nat)
  | 0, _, _, _ => none
  | fuel + 1, cur, best, bestd =>
    if cur < heap_end then
      if STATUS (GET m cur) = FREE then
        if size ≤ SIZE (GET m cur) then
          if SIZE (GET m cur) - size < bestd then
            if SIZE (GET m cur) - size = 0 then
              some (some cur)
            else
              bf_scan m heap_end size fuel (cur + SIZE (GET m cur)) (some cur)
                (SIZE (GET m cur) - size)
          else
            bf_scan m heap_end size fuel (cur + SIZE (GET m cur)) best bestd
        else
          bf_scan m heap_end size fuel (cur + SIZE (GET m cur)) best bestd
      else
        bf_scan m heap_end size fuel (cur + SIZE (GET m cur)) best bestd
    else
      some best

/-- best fit: full scan for the free block with the least excess size -/
def bf_get_free_block (s : MMState) (size fuel : Nat) : Option (Option Nat) :=
  bf_scan s.mem s.heap_end size fuel s.heap_start none SIZE_MAX64

/-- dispatch through the policy function pointer; for next fit the
    persistent cursor in the state is updated -/
def get_free_block (s : MMState) (size fuel : Nat) :
    Option (Option Nat × MMState) :=
  match s.policy with
  | AllocationPolicy.ap_FirstFit =>
    (ff_get_free_block s size fuel).map (fun r => (r, s))
  | AllocationPolicy.ap_BestFit =>
    (bf_get_free_block s size fuel).map (fun r => (r, s))
  | AllocationPolicy.ap_NextFit =>
    (nf_get_free_block s size fuel).map
      (fun rc => (rc.1, { s with next_block := rc.2 }))

/-- mm_init (memmgr.c lines 182-245) on a clean provider whose range is
    [dstart, dstart) and whose capacity is dcap: request one CHUNKSIZE from
    the provider (the C code ignores the ds_sbrk return value), align
    heap_start up and heap_end down, write the two sentinels and one free
    block spanning the whole arena. -/
def mm_init (dstart dcap : Nat) (ap : AllocationPolicy) : MMState :=
  let s0 : MMState :=
    { mem := [], ds_start := dstart, ds_brk := dstart, ds_cap := dcap,
      heap_start := 0, heap_end := 0, next_block := none, policy := ap }
  let s1 := match ds_sbrk s0 (Int.ofNat CHUNKSIZE) with
            | some t => t
            | none => s0
  let hs := (s1.ds_start / BS + 1) * BS
  let he := (s1.ds_brk - TYPE_SIZE) / BS * BS
  let initial_free_block_size := he - hs
  let m1 := PUT s1.mem (hs - TYPE_SIZE) (PACK 0 ALLOC)
  let m2 := PUT m1 hs (PACK initial_free_block_size FREE)
  let m3 := PUT m2 (he - TYPE_SIZE) (PACK initial_free_block_size FREE)
  let m4 := PUT m3 he (PACK 0 ALLOC)
  { s1 with mem := m4, heap_start := hs, heap_end := he }

/-- the tail of mm_malloc (memmgr.c lines 304-320): given the candidate
    free block, split it when its size exceeds blocksize by at least
    4*TYPE_SIZE, otherwise allocate it whole; return the payload pointer. -/
def mm_place (s : MMState) (free_block blocksize : Nat) :
    Option Nat × MMState :=
  let free_block_size := SIZE (GET s.mem free_block)
  if blocksize + 4 * TYPE_SIZE ≤ free_block_size then
    let m1 := PUT s.mem free_block (PACK blocksize ALLOC)
    let m2 := PUT m1 (free_block + SIZE (GET m1 free_block) - TYPE_SIZE)
                (PACK blocksize ALLOC)
    let remainder := free_block + SIZE (GET m2 free_block)
    let m3 := PUT m2 remainder (PACK (free_block_size - blocksize) FREE)
    let m4 := PUT m3 (remainder + SIZE (GET m3 remainder) - TYPE_SIZE)
                (PACK (free_block_size - blocksize) FREE)
    (some (free_block + TYPE_SIZE), { s with mem := m4 })
  else
    let m1 := PUT s.mem free_block (PACK free_block_size ALLOC)
    let m2 := PUT m1 (free_block + SIZE (GET m1 free_block) - TYPE_SIZE)
                (PACK free_block_size ALLOC)
    (some (free_block + TYPE_SIZE), { s with mem := m2 })

/-- the heap-growth path of mm_malloc (memmgr.c lines 264-302): extend the
    provider range, recompute heap_end, absorb a trailing free block, write
    the new free block and the new end sentinel; `none` when ds_sbrk fails. -/
def mm_grow (s : MMState) (blocksize : Nat) : Option (Nat × MMState) :=
  let old_heap_end := s.heap_end
  let expand_size := MAX CHUNKSIZE blocksize
  match ds_sbrk s (Int.ofNat expand_size) with
  | none => none
  | some s1 =>
    let new_heap_end := (s1.ds_brk - TYPE_SIZE) / BS * BS
    let s2 := { s1 with heap_end := new_heap_end }
    let expanded0 := new_heap_end - old_heap_end
    let prev_block := old_heap_end - TYPE_SIZE
    let old_he :=
      if STATUS (GET s2.mem prev_block) = FREE then
        old_heap_end - SIZE (GET s2.mem prev_block)
      else old_heap_end
    let expanded :=
      if STATUS (GET s2.mem prev_block) = FREE then
        expanded0 + SIZE (GET s2.mem prev_block)
      else expanded0
    let m1 := PUT s2.mem old_he (PACK expanded FREE)
    let m2 := PUT m1 (old_he + SIZE (GET m1 old_he) - TYPE_SIZE)
                (PACK expanded FREE)
    let m3 := PUT m2 s2.heap_end (PACK 0 ALLOC)
    some (old_he, { s2 with mem := m3 })

/-- mm_malloc (memmgr.c lines 248-321).  `fuel` bounds the policy scan
    loop; a result `none` means that scan ran out of fuel, `some (r, sf)`
    is the C result r together with the post state. -/
def mm_malloc (s : MMState) (size fuel : Nat) :
    Option (Option Nat × MMState) :=
  if size = 0 then
    some (none, s)
  else
    let blocksize := ROUND_UP (TYPE_SIZE + size + TYPE_SIZE)
    match get_free_block s blocksize fuel with
    | none => none
    | some (some free_block, s1) => some (mm_place s1 free_block blocksize)
    | some (none, s1) =>
      match mm_grow s1 blocksize with
      | none => some (none, s1)
      | some (fb, s2) => some (mm_place s2 fb blocksize)

/-- memcpy on whole words: copy n words from src to dst (the source region
    is read from the pre-copy memory; the C call sites never overlap) -/
def memcpy_words (m : Mem) (dst src : Nat) : Nat → Mem
  | 0 => m
  | n + 1 =>
    PUT (memcpy_words m dst src n) (dst + n * TYPE_SIZE)
      (GET m (src + n * TYPE_SIZE))

/-- memset-to-zero on whole words: clear n words starting at p (every use
    in the sources clears a whole number of words) -/
def memset_words (m : Mem) (p : Nat) : Nat → Mem
  | 0 => m
  | n + 1 => PUT (memset_words m p n) (p + n * TYPE_SIZE) 0

/-- mm_calloc (memmgr.c lines 323-337): malloc then zero the payload -/
def mm_calloc (s : MMState) (nmemb size fuel : Nat) :
    Option (Option Nat × MMState) :=
  match mm_malloc s (nmemb * size) fuel with
  | none => none
  | some (none, s1) => some (none, s1)
  | some (some payload, s1) =>
    some (some payload,
      { s1 with mem := memset_words s1.mem payload (nmemb * size / TYPE_SIZE) })

/-- mm_free lines 433-438: read the block size and write the free mark
    into header and footer -/
def mm_free_mark (m : Mem) (head_ptr : Nat) : Mem :=
  let size0 := SIZE (GET m head_ptr)
  let m1 := PUT m head_ptr (PACK size0 FREE)
  PUT m1 (head_ptr + SIZE (GET m1 head_ptr) - TYPE_SIZE) (PACK size0 FREE)

/-- mm_free lines 440-447: coalesce with the previous block when the word
    before the header (its footer) says FREE; returns the new head, the new
    size and the new memory -/
def mm_free_coalesce_left (m2 : Mem) (head_ptr size0 : Nat) :
    Nat × Nat × Mem :=
  if STATUS (GET m2 (head_ptr - TYPE_SIZE)) = FREE then
    let sz := size0 + SIZE (GET m2 (head_ptr - TYPE_SIZE))
    let m3 := PUT m2
      (head_ptr - TYPE_SIZE - SIZE (GET m2 (head_ptr - TYPE_SIZE)) + TYPE_SIZE)
      (PACK sz FREE)
    let m4 := PUT m3 (head_ptr + SIZE (GET m3 head_ptr) - TYPE_SIZE)
      (PACK sz FREE)
    (head_ptr - TYPE_SIZE - SIZE (GET m4 (head_ptr - TYPE_SIZE)) + TYPE_SIZE,
      sz, m4)
  else
    (head_ptr, size0, m2)

/-- mm_free lines 449-454: coalesce with the next block when its header
    says FREE; returns the new size and the new memory -/
def mm_free_coalesce_right (m4 : Mem) (head1 size1 : Nat) : Nat × Mem :=
  if STATUS (GET m4 (head1 + SIZE (GET m4 head1))) = FREE then
    let sz := size1 + SIZE (GET m4 (head1 + SIZE (GET m4 head1)))
    let m5 := PUT m4 head1 (PACK sz FREE)
    (sz, PUT m5 (head1 + SIZE (GET m5 head1) - TYPE_SIZE) (PACK sz FREE))
  else
    (size1, m4)

/-- mm_free lines 456-466: shrink the heap when the resulting free block
    ends exactly at heap_end and reaches SHRINKTHLD (the C code ignores
    the ds_sbrk result), rewriting the end sentinel at the new heap_end -/
def mm_free_shrink (s : MMState) (head1 size2 : Nat) (m6 : Mem) : MMState :=
  if head1 + SIZE (GET m6 head1) = s.heap_end ∧ SHRINKTHLD ≤ size2 then
    let sA := { s with mem := m6 }
    let sB := match ds_sbrk sA (-(Int.ofNat size2)) with
              | some t => t
              | none => sA
    let sC := { sB with heap_end := sB.heap_end - size2 }
    { sC with mem := PUT sC.mem sC.heap_end (PACK 0 ALLOC) }
  else
    { s with mem := m6 }

/-- mm_free (memmgr.c lines 415-467): mark free, coalesce left then right,
    shrink -/
def mm_free (s : MMState) : Option Nat → MMState
  | none => s
  | some p =>
    let head_ptr := p - TYPE_SIZE
    if STATUS (GET s.mem head_ptr) = FREE then
      s
    else
      let size0 := SIZE (GET s.mem head_ptr)
      let m2 := mm_free_mark s.mem head_ptr
      let step3 := mm_free_coalesce_left m2 head_ptr size0
      let step5 := mm_free_coalesce_right step3.2.2 step3.1 step3.2.1
      mm_free_shrink s step3.1 step5.1 step5.2

/-- mm_realloc lines 368-381 (shrink in place): free the tail, coalesce it
    with the following block when that is free, re-mark the shrunk block
    allocated; returns the new memory -/
def mm_realloc_shrink (s : MMState) (p old_size new_size : Nat) : Mem :=
  let h := p - TYPE_SIZE
  let m1 := PUT s.mem (h + SIZE (GET s.mem h) - TYPE_SIZE)
              (PACK (old_size - new_size) FREE)
  let f1 := h + SIZE (GET m1 h) - TYPE_SIZE
  let m2 := PUT m1 (f1 - SIZE (GET m1 f1) + TYPE_SIZE)
              (PACK (old_size - new_size) FREE)
  let f2 := h + SIZE (GET m2 h) - TYPE_SIZE
  let m4 :=
    if STATUS (GET m2 (f2 + TYPE_SIZE)) = FREE then
      let f2a := h + SIZE (GET m2 h) - TYPE_SIZE
      let nfs := SIZE (GET m2 f2a) + SIZE (GET m2 (f2a + TYPE_SIZE))
      let np := f2a + TYPE_SIZE
      let m3 := PUT m2 (np + SIZE (GET m2 np) - TYPE_SIZE) (PACK nfs FREE)
      let f3 := h + SIZE (GET m3 h) - TYPE_SIZE
      PUT m3 (f3 - SIZE (GET m3 f3) + TYPE_SIZE) (PACK nfs FREE)
    else
      m2
  let m5 := PUT m4 h (PACK new_size ALLOC)
  PUT m5 (h + SIZE (GET m5 h) - TYPE_SIZE) (PACK new_size ALLOC)

/-- mm_realloc lines 390-395 (the in-place absorption writes, driven by the
    size read at the misread address); returns the new memory -/
def mm_realloc_absorb (s : MMState) (p old_size next_size new_size : Nat) :
    Mem :=
  let h := p - TYPE_SIZE
  let rn1 := h + SIZE (GET s.mem h)
  let m1 := PUT s.mem (rn1 + SIZE (GET s.mem rn1) - TYPE_SIZE)
              (PACK (old_size + next_size - new_size) FREE)
  let rn2 := h + SIZE (GET m1 h)
  let f := rn2 + SIZE (GET m1 rn2) - TYPE_SIZE
  let m2 := PUT m1 (f - SIZE (GET m1 f) + TYPE_SIZE)
              (PACK (old_size + next_size - new_size) FREE)
  let m3 := PUT m2 h (PACK new_size ALLOC)
  PUT m3 (h + SIZE (GET m3 h) - TYPE_SIZE) (PACK new_size ALLOC)

/-- mm_realloc (memmgr.c lines 339-413), translated branch by branch with
    the exact re-reads of memory performed by the nested C macros
    (note line 386: NEXT_BLK_FROM_PAYLOAD adds the old size to the payload
    pointer, so the status/size reads of the "next block" hit the word one
    past the next block's header). -/
def mm_realloc (s : MMState) : Option Nat → Nat → Nat →
    Option (Option Nat × MMState)
  | none, size, fuel => mm_malloc s size fuel
  | some p, size, fuel =>
    if size = 0 then
      some (none, mm_free s (some p))
    else
      let h := p - TYPE_SIZE
      let old_size := SIZE (GET s.mem h)
      let new_size := ROUND_UP (TYPE_SIZE + size + TYPE_SIZE)
      if new_size = old_size then
        some (some p, s)
      else if new_size < old_size then
        some (some p, { s with mem := mm_realloc_shrink s p old_size new_size })
      else
        -- growing: probe the word at payload + old size (line 386)
        let next_block := p + SIZE (GET s.mem h)
        let next_size := SIZE (GET s.mem next_block)
        if STATUS (GET s.mem next_block) = FREE ∧
            new_size ≤ old_size + next_size then
          some (some p,
            { s with mem := mm_realloc_absorb s p old_size next_size new_size })
        else
          -- fall back to malloc + copy + free
          match mm_malloc s size fuel with
          | none => none
          | some (none, s2) => some (none, s2)
          | some (some new_ptr, s2) =>
            let copy_size := old_size - TYPE_SIZE
            let mC := memcpy_words s2.mem new_ptr p (copy_size / TYPE_SIZE)
            let s3 := mm_free { s2 with mem := mC } (some p)
            some (some new_ptr, s3)

/-- mm_check's walking loop (memmgr.c lines 607-640): compare header and
    footer of every block from heap_start on; `some none` models the
    mm_panic on a header/footer mismatch (the process terminates),
    `some (some b)` is the final coherence verdict, `none` is fuel
    exhaustion. -/
def mm_check_scan (m : Mem) (heap_end : Nat) : Nat → Nat → Option (Option Bool)
  | 0, _ => none
  | fuel + 1, p =>
    if p < heap_end then
      let size := SIZE (GET m p)
      let status := STATUS (GET m p)
      let fp := p + size - TYPE_SIZE
      if size ≠ SIZE (GET m fp) ∨ status ≠ STATUS (GET m fp) then
        some none
      else if size = 0 then
        some (some false)
      else
        mm_check_scan m heap_end fuel (p + size)
    else
      some (some (p == heap_end))

/-- mm_check (memmgr.c lines 575-645), reduced to its verdict -/
def mm_check (s : MMState) (fuel : Nat) : Option (Option Bool) :=
  mm_check_scan s.mem s.heap_end fuel s.heap_start


/-! Basic facts about the boundary-tag encoding. -/

/-- bitwise or is plain addition when the operands occupy disjoint bit
    ranges, as for a size (multiple of 8) and a status (below 8) -/
theorem lor_eq_add_of_aligned (x st : Nat) (h8 : x % 8 = 0) (hst : st < 8) :
    x ||| st = x + st := by
  apply Nat.eq_of_testBit_eq
  intro i
  rw [Nat.testBit_lor]
  rcases Nat.lt_or_ge i 3 with hi | hi
  · have hx : x / 2 ^ i % 2 = 0 := by interval_cases i <;> simp <;> omega
    have hxs : (x + st) / 2 ^ i % 2 = st / 2 ^ i % 2 := by
      interval_cases i <;> simp <;> omega
    rw [Nat.testBit_to_div_mod, Nat.testBit_to_div_mod, Nat.testBit_to_div_mod,
      hxs, hx]
    simp
  · have h2i : (8 : Nat) ∣ 2 ^ i := by
      refine ⟨2 ^ (i - 3), ?_⟩
      have h83 : (8 : Nat) = 2 ^ 3 := rfl
      rw [h83, ← pow_add]
      congr 1
      omega
    have hpos : 0 < 2 ^ i := Nat.pos_pow_of_pos i (by omega)
    have hle8 : 8 ≤ 2 ^ i := Nat.le_of_dvd hpos h2i
    have hstbit : Nat.testBit st i = false := by
      apply Nat.testBit_lt_two_pow
      omega
    obtain ⟨k, hk⟩ := h2i
    have hxmod : x % 2 ^ i % 8 = 0 := by
      rw [Nat.mod_mod_of_dvd x ⟨k, hk⟩]
      exact h8
    have hxlt : x % 2 ^ i < 2 ^ i := Nat.mod_lt x hpos
    have hcarry : x % 2 ^ i + st % 2 ^ i < 2 ^ i := by
      have hs : st % 2 ^ i = st := Nat.mod_eq_of_lt (by omega)
      rw [hs]
      omega
    have hdiv : (x + st) / 2 ^ i = x / 2 ^ i := by
      rw [Nat.add_div_eq_of_add_mod_lt hcarry,
        Nat.div_eq_of_lt (by omega : st < 2 ^ i)]
      omega
    rw [hstbit, Bool.or_false, Nat.testBit_to_div_mod, Nat.testBit_to_div_mod,
      hdiv]

theorem pack_free_eq (x : Nat) : PACK x FREE = x := Nat.or_zero x

theorem pack_alloc_eq (x : Nat) (h8 : x % 8 = 0) : PACK x ALLOC = x + 1 :=
  lor_eq_add_of_aligned x 1 h8 (by omega)

theorem size_mod8 (v : Nat) : SIZE v % 8 = 0 := by
  unfold SIZE
  omega

theorem size_of_aligned (x : Nat) (h8 : x % 8 = 0) : SIZE x = x := by
  unfold SIZE
  omega

theorem size_pack_free (x : Nat) (h8 : x % 8 = 0) : SIZE (PACK x FREE) = x := by
  rw [pack_free_eq]
  exact size_of_aligned x h8

theorem size_pack_alloc (x : Nat) (h8 : x % 8 = 0) :
    SIZE (PACK x ALLOC) = x := by
  rw [pack_alloc_eq x h8]
  unfold SIZE
  omega

theorem status_pack_free (x : Nat) (h8 : x % 8 = 0) :
    STATUS (PACK x FREE) = FREE := by
  rw [pack_free_eq]
  unfold STATUS FREE
  omega

theorem status_pack_alloc (x : Nat) (h8 : x % 8 = 0) :
    STATUS (PACK x ALLOC) = ALLOC := by
  rw [pack_alloc_eq x h8]
  unfold STATUS ALLOC
  omega

theorem get_put (m : Mem) (p v a : Nat) :
    GET (PUT m p v) a = if a = p then v else GET m a := rfl

theorem round_up_mod32 (w : Nat) : ROUND_UP w % 32 = 0 := by
  unfold ROUND_UP BS
  omega

/-! Concrete operation traces used as counterexamples.  Both start from a
    clean provider at address 0 (so that after the initial CHUNKSIZE
    extension heap_start = 32 and heap_end = 992, and the one free block
    spans [32, 992) with size 960). -/

/-- next-fit trace, state 0: freshly set-up heap under next fit -/
def trace_c1_s0 : MMState := mm_init 0 4096 AllocationPolicy.ap_NextFit

/-- after allocate(16): block [32,64) allocated (payload 40), cursor 32 -/
def trace_c1_s1 : Option MMState := (mm_malloc trace_c1_s0 16 100).map Prod.snd

/-- after a second allocate(16): block [64,96) allocated (payload 72), cursor 64 -/
def trace_c1_s2 : Option MMState :=
  trace_c1_s1.bind fun s => (mm_malloc s 16 100).map Prod.snd

/-- after a third allocate(16): block [96,128) allocated (payload 104), cursor 96 -/
def trace_c1_s3 : Option MMState :=
  trace_c1_s2.bind fun s => (mm_malloc s 16 100).map Prod.snd

/-- after release(72): block [64,96) free, no coalescing possible -/
def trace_c1_s4 : Option MMState :=
  trace_c1_s3.map fun s => mm_free s (some 72)

/-- after release(104): [64,96), [96,128) and the tail coalesce into the
    free block [64,992); the next-fit cursor still points at 96, which is
    now strictly inside that free block -/
def trace_c1_s5 : Option MMState :=
  trace_c1_s4.map fun s => mm_free s (some 104)

/-- after zero-allocate(1, 48): the stale cursor makes next fit hand out
    the interior address 128; mm_malloc then splits at 128 and writes the
    remainder footer over the live footer of the free block [64,992) -/
def trace_c1_s6 : Option MMState :=
  trace_c1_s5.bind fun s => (mm_calloc s 1 48 100).map Prod.snd

/-- first-fit trace for the resize claims, state 0 -/
def trace_c2_s0 : MMState := mm_init 0 4096 AllocationPolicy.ap_FirstFit

/-- after allocate(16): block [32,64) allocated (payload 40), followed
    immediately by the free block [64,992) of size 928 -/
def trace_c2_s1 : Option MMState := (mm_malloc trace_c2_s0 16 100).map Prod.snd

/-- the result of resize(40, 40) in that state (new required block size 64) -/
def trace_c2_r : Option (Option Nat × MMState) :=
  trace_c2_s1.bind fun s => mm_realloc s (some 40) 40 100

/-- C1: the heap invariant does NOT hold in every reachable state.  After
    init(next-fit) from a clean provider and the operation sequence
    allocate 16 / allocate 16 / allocate 16 / release second / release
    third / zero-allocate 48, the walk-visible block starting at address 64
    has header PACK(928, FREE) = 928 but footer 800 at its footer address
    984, so header and footer disagree bitwise, and the allocator's own
    consistency checker (mm_check) hits the mismatch and aborts the
    process.  Root cause: mm_free leaves the next-fit cursor pointing into
    the interior of a coalesced free block, the next scan hands out that
    interior word as a candidate, and mm_place's remainder footer write
    lands on the live footer of the surrounding free block. -/
theorem c1_invariant_fails_on_reachable_state :
    ((mm_malloc trace_c1_s0 16 100).map Prod.fst = some (some 40)
      ∧ (trace_c1_s1.bind fun s => (mm_malloc s 16 100).map Prod.fst)
          = some (some 72)
      ∧ (trace_c1_s2.bind fun s => (mm_malloc s 16 100).map Prod.fst)
          = some (some 104)
      ∧ (trace_c1_s5.bind fun s => (mm_calloc s 1 48 100).map Prod.fst)
          = some (some 136))
  ∧ (trace_c1_s6.map fun s =>
      (GET s.mem 64, GET s.mem 984, s.heap_start, s.heap_end))
      = some (928, 800, 32, 992)
  ∧ 64 + SIZE 928 - TYPE_SIZE = 984
  ∧ SIZE 928 ≠ SIZE 800
  ∧ (trace_c1_s6.bind fun s => mm_check s 100) = some none := by
  decide

/-- C2: resize does NOT absorb the immediately following free block even
    when the combined size suffices.  In trace_c2_s1 the allocated block
    [32, 64) (payload pointer 40, size 32) is immediately followed by the
    free block [64, 992) with header PACK(928, FREE); the new required
    block size for resize(40, 40) is ROUND_UP(8+40+8) = 64 ≤ 32 + 928, so
    per the claim the block should grow in place and the pointer stay 40.
    The code instead reads the "next block" status and size at payload +
    old size = address 72 (one word past the next header, value 0 here),
    misses the absorption, allocates a new block and returns 72 ≠ 40. -/
theorem c2_absorption_not_performed :
    ((mm_malloc trace_c2_s0 16 100).map Prod.fst = some (some 40)
      ∧ (trace_c2_s1.map fun s => SIZE (GET s.mem (40 - TYPE_SIZE)))
          = some 32
      ∧ (trace_c2_s1.map fun s =>
          (STATUS (GET s.mem 64), SIZE (GET s.mem 64))) = some (FREE, 928)
      ∧ ROUND_UP (TYPE_SIZE + 40 + TYPE_SIZE) = 64
      ∧ 64 ≤ 32 + 928)
  ∧ (trace_c2_s1.map fun s => GET s.mem 72) = some 0
  ∧ trace_c2_r.map Prod.fst = some (some 72)
  ∧ (72 : Nat) ≠ 40 := by
  decide

/-- C8: the next-fit search does NOT always return the first free block of
    sufficient size.  State trace_c1_s5 is reachable (see the trace above)
    and its heap walk is coherent: the blocks are exactly [32, 64)
    allocated and [64, 992) free; but the persistent cursor is the stale
    address 96 (inside the free block), and the search for 64 bytes
    returns 128 - an address strictly inside the free block [64, 992) that
    is not a block at all - instead of the free block at 64. -/
theorem c8_next_fit_returns_interior_address :
    (trace_c1_s5.bind fun s => mm_check s 100) = some (some true)
  ∧ (trace_c1_s5.map fun s =>
      (GET s.mem 32, GET s.mem 64, s.next_block, s.heap_start, s.heap_end))
      = some (33, 928, some 96, 32, 992)
  ∧ STATUS 33 = ALLOC ∧ STATUS 928 = FREE ∧ SIZE 928 = 928
  ∧ (trace_c1_s5.bind fun s => (nf_get_free_block s 64 100).map Prod.fst)
      = some (some 128)
  ∧ 64 < 128 ∧ 128 < 64 + 928
  ∧ (128 : Nat) ≠ 64 := by
  decide

/-- the state used for the C5 counterexample: a next-fit heap whose
    provider is already at its capacity, so any further growth fails -/
def c5_s0 : MMState := mm_init 0 1024 AllocationPolicy.ap_NextFit

/-- C5 counterexample: a failing allocation is NOT free of state mutation.
    In c5_s0 the next-fit cursor is null; allocate(2000) finds no block,
    provider growth fails, the failure indicator is returned - but the
    next-fit cursor (allocator state) has been reset from null to
    heap_start = 32. -/
theorem c5_failing_alloc_mutates_cursor :
    c5_s0.next_block = none
  ∧ (mm_malloc c5_s0 2000 100).map (fun rs => (rs.1, rs.2.next_block))
      = some (none, some 32)
  ∧ (some 32 : Option Nat) ≠ none := by
  decide

/-! Initialization. -/

/-- reduction of mm_init when the provider grant succeeds: the break moves
    to dstart + CHUNKSIZE and the four words are written -/
theorem mm_init_eq (dstart dcap : Nat) (ap : AllocationPolicy)
    (hcap : dstart + CHUNKSIZE ≤ dcap) :
    mm_init dstart dcap ap =
      { mem := PUT (PUT (PUT (PUT []
            ((dstart / BS + 1) * BS - TYPE_SIZE) (PACK 0 ALLOC))
            ((dstart / BS + 1) * BS)
            (PACK ((dstart + CHUNKSIZE - TYPE_SIZE) / BS * BS
              - (dstart / BS + 1) * BS) FREE))
            ((dstart + CHUNKSIZE - TYPE_SIZE) / BS * BS - TYPE_SIZE)
            (PACK ((dstart + CHUNKSIZE - TYPE_SIZE) / BS * BS
              - (dstart / BS + 1) * BS) FREE))
            ((dstart + CHUNKSIZE - TYPE_SIZE) / BS * BS) (PACK 0 ALLOC),
        ds_start := dstart, ds_brk := dstart + CHUNKSIZE, ds_cap := dcap,
        heap_start := (dstart / BS + 1) * BS,
        heap_end := (dstart + CHUNKSIZE - TYPE_SIZE) / BS * BS,
        next_block := none, policy := ap } := by
  have hc : Int.ofNat dstart ≤ Int.ofNat dstart + Int.ofNat CHUNKSIZE ∧
      Int.ofNat dstart + Int.ofNat CHUNKSIZE ≤ Int.ofNat dcap := by
    unfold CHUNKSIZE at hcap ⊢
    simp only [Int.ofNat_eq_natCast]
    omega
  have ht : (Int.ofNat dstart + Int.ofNat CHUNKSIZE).toNat
      = dstart + CHUNKSIZE := by
    unfold CHUNKSIZE
    simp only [Int.ofNat_eq_natCast]
    omega
  unfold mm_init ds_sbrk
  simp only [if_pos hc, ht]

/-- the conclusion of claim C7 for a given provider start, capacity and
    policy: heap_start is the next minimum-block-size boundary strictly
    above the provider start, heap_end the previous boundary strictly
    below the provider end, and exactly the left sentinel, one free block
    spanning [heap_start, heap_end) and the right sentinel are written -/
def c7_layout (dstart dcap : Nat) (ap : AllocationPolicy) : Prop :=
    ((mm_init dstart dcap ap).heap_start % BS = 0
      ∧ dstart < (mm_init dstart dcap ap).heap_start
      ∧ (mm_init dstart dcap ap).heap_start ≤ dstart + BS)
  ∧ ((mm_init dstart dcap ap).heap_end % BS = 0
      ∧ (mm_init dstart dcap ap).heap_end < (mm_init dstart dcap ap).ds_brk
      ∧ (mm_init dstart dcap ap).ds_brk ≤ (mm_init dstart dcap ap).heap_end + BS
      ∧ (mm_init dstart dcap ap).ds_brk = dstart + CHUNKSIZE)
  ∧ (mm_init dstart dcap ap).heap_start + BS ≤ (mm_init dstart dcap ap).heap_end
  ∧ GET (mm_init dstart dcap ap).mem
      ((mm_init dstart dcap ap).heap_start - TYPE_SIZE) = PACK 0 ALLOC
  ∧ GET (mm_init dstart dcap ap).mem (mm_init dstart dcap ap).heap_start
      = PACK ((mm_init dstart dcap ap).heap_end
          - (mm_init dstart dcap ap).heap_start) FREE
  ∧ GET (mm_init dstart dcap ap).mem
      ((mm_init dstart dcap ap).heap_end - TYPE_SIZE)
      = PACK ((mm_init dstart dcap ap).heap_end
          - (mm_init dstart dcap ap).heap_start) FREE
  ∧ GET (mm_init dstart dcap ap).mem (mm_init dstart dcap ap).heap_end
      = PACK 0 ALLOC

/-- C7: given a clean word-aligned provider with enough capacity for the
    initial CHUNKSIZE grant, mm_init computes heap_start as the next
    32-byte boundary strictly above the provider start and heap_end as the
    previous 32-byte boundary strictly below the provider end, and writes
    the zero-size allocated left sentinel just before heap_start, one free
    block whose header and footer both carry heap_end - heap_start, and
    the zero-size allocated right sentinel at heap_end. -/
theorem c7_init_layout (dstart dcap : Nat) (ap : AllocationPolicy)
    (h8 : dstart % 8 = 0) (hcap : dstart + CHUNKSIZE ≤ dcap) :
    c7_layout dstart dcap ap := by
  unfold c7_layout
  rw [mm_init_eq dstart dcap ap hcap]
  simp only []
  unfold BS TYPE_SIZE CHUNKSIZE at *
  refine ⟨⟨by omega, by omega, by omega⟩,
    ⟨by omega, by omega, by omega, by trivial⟩, by omega, ?_, ?_, ?_, ?_⟩
  · rw [get_put, if_neg (by omega), get_put, if_neg (by omega),
      get_put, if_neg (by omega), get_put, if_pos rfl]
  · rw [get_put, if_neg (by omega), get_put, if_neg (by omega),
      get_put, if_pos rfl]
  · rw [get_put, if_neg (by omega), get_put, if_pos rfl]
  · rw [get_put, if_pos rfl]

/-- witness for C7 at the concrete provider (start 0, capacity 4096) -/
theorem c7_init_layout_witness :
    (0 : Nat) % 8 = 0 ∧ 0 + CHUNKSIZE ≤ 4096
  ∧ c7_layout 0 4096 AllocationPolicy.ap_FirstFit :=
  ⟨by decide, by decide,
    c7_init_layout 0 4096 AllocationPolicy.ap_FirstFit (by decide) (by decide)⟩

/-! Benign no-ops. -/

/-- C6: allocate(0) returns the failure indicator with the state untouched,
    release(null) is the identity, release of an already-free block is the
    identity, and resize(null, n) is exactly allocate(n). -/
theorem c6_boundary_noops :
    (∀ s fuel, mm_malloc s 0 fuel = some (none, s))
  ∧ (∀ s, mm_free s none = s)
  ∧ (∀ s p, STATUS (GET s.mem (p - TYPE_SIZE)) = FREE → mm_free s (some p) = s)
  ∧ (∀ s size fuel, mm_realloc s none size fuel = mm_malloc s size fuel) := by
  refine ⟨fun s fuel => by simp [mm_malloc], fun s => rfl,
    fun s p h => by simp [mm_free, h], fun s size fuel => rfl⟩

/-- witness for C6: each part applied at the freshly set-up first-fit heap
    (address 40 was never written, so its status reads FREE) -/
theorem c6_boundary_noops_witness :
    STATUS (GET (mm_init 0 4096 AllocationPolicy.ap_FirstFit).mem
      (48 - TYPE_SIZE)) = FREE
  ∧ mm_free (mm_init 0 4096 AllocationPolicy.ap_FirstFit) (some 48)
      = mm_init 0 4096 AllocationPolicy.ap_FirstFit
  ∧ mm_malloc (mm_init 0 4096 AllocationPolicy.ap_FirstFit) 0 5
      = some (none, mm_init 0 4096 AllocationPolicy.ap_FirstFit)
  ∧ mm_free (mm_init 0 4096 AllocationPolicy.ap_FirstFit) none
      = mm_init 0 4096 AllocationPolicy.ap_FirstFit
  ∧ mm_realloc (mm_init 0 4096 AllocationPolicy.ap_FirstFit) none 7 5
      = mm_malloc (mm_init 0 4096 AllocationPolicy.ap_FirstFit) 7 5 :=
  ⟨by decide, c6_boundary_noops.2.2.1 _ 48 (by decide),
    c6_boundary_noops.1 _ 5, c6_boundary_noops.2.1 _,
    c6_boundary_noops.2.2.2 _ 7 5⟩

/-! Selection policies: frame and cursor behaviour. -/

/-- a successful nf_scan leaves the cursor exactly at the returned block -/
theorem nf_scan_success_cursor (m : Mem) (hs he init size : Nat) :
    ∀ fuel cur r c, nf_scan m hs he init size fuel cur = some (some r, c) →
      c = r := by
  intro fuel
  induction fuel with
  | zero =>
    intro cur r c h
    simp [nf_scan] at h
  | succ n ih =>
    intro cur r c h
    simp only [nf_scan] at h
    by_cases h1 : STATUS (GET m cur) = FREE ∧ size ≤ SIZE (GET m cur)
    · rw [if_pos h1] at h
      simp only [Option.some.injEq, Prod.mk.injEq] at h
      omega
    · rw [if_neg h1] at h
      by_cases h2 : (if he ≤ cur + SIZE (GET m cur) then hs
          else cur + SIZE (GET m cur)) = init
      · rw [if_pos h2] at h
        simp only [Option.some.injEq, Prod.mk.injEq] at h
        exact absurd h.1 (by simp)
      · rw [if_neg h2] at h
        exact ih _ r c h

/-- on success, nf_get_free_block stores the returned block in the cursor -/
theorem nf_get_free_block_cursor (s : MMState) (size fuel : Nat)
    (r c : Option Nat) (h : nf_get_free_block s size fuel = some (r, c)) :
    ∀ b, r = some b → c = some b := by
  intro b hb
  subst hb
  simp only [nf_get_free_block] at h
  rcases hscan : nf_scan s.mem s.heap_start s.heap_end
      (match s.next_block with
        | none => s.heap_start
        | some c => if s.heap_end ≤ c then s.heap_start else c) size fuel
      (match s.next_block with
        | none => s.heap_start
        | some c => if s.heap_end ≤ c then s.heap_start else c)
      with _ | rc
  · rw [hscan] at h
    simp at h
  · rw [hscan] at h
    obtain ⟨r0, cur⟩ := rc
    simp only [Option.some.injEq, Prod.mk.injEq] at h
    have hcur : cur = b := nf_scan_success_cursor _ _ _ _ _ _ _ _ _
      (by rw [hscan, h.1])
    rw [← h.2, hcur]

/-- C10: the selection policies write no heap word and touch no allocator
    state other than the next-fit cursor: first fit and best fit return the
    state unchanged, next fit changes at most the cursor, and on a
    successful next-fit search the cursor is left equal to the returned
    block, so the immediately following next-fit search begins scanning at
    the block that was just handed out. -/
theorem c10_policies_frame :
    (∀ s size fuel r s1, s.policy = AllocationPolicy.ap_FirstFit →
        get_free_block s size fuel = some (r, s1) → s1 = s)
  ∧ (∀ s size fuel r s1, s.policy = AllocationPolicy.ap_BestFit →
        get_free_block s size fuel = some (r, s1) → s1 = s)
  ∧ (∀ s size fuel r s1, s.policy = AllocationPolicy.ap_NextFit →
        get_free_block s size fuel = some (r, s1) →
        s1.mem = s.mem ∧ s1.heap_start = s.heap_start
          ∧ s1.heap_end = s.heap_end ∧ s1.ds_brk = s.ds_brk
          ∧ s1.ds_start = s.ds_start ∧ s1.ds_cap = s.ds_cap
          ∧ s1.policy = s.policy
          ∧ ∀ b, r = some b → s1.next_block = some b) := by
  refine ⟨?_, ?_, ?_⟩
  · intro s size fuel r s1 hp h
    unfold get_free_block at h
    rw [hp] at h
    rcases hff : ff_get_free_block s size fuel with _ | a
    · rw [hff] at h
      simp at h
    · rw [hff] at h
      simp at h
      obtain ⟨h1, h2⟩ := h
      exact h2.symm
  · intro s size fuel r s1 hp h
    unfold get_free_block at h
    rw [hp] at h
    rcases hbf : bf_get_free_block s size fuel with _ | a
    · rw [hbf] at h
      simp at h
    · rw [hbf] at h
      simp at h
      obtain ⟨h1, h2⟩ := h
      exact h2.symm
  · intro s size fuel r s1 hp h
    unfold get_free_block at h
    rw [hp] at h
    rcases hnf : nf_get_free_block s size fuel with _ | rc
    · rw [hnf] at h
      simp at h
    · rw [hnf] at h
      obtain ⟨r0, c0⟩ := rc
      simp at h
      obtain ⟨hr, hs1⟩ := h
      subst hr
      subst hs1
      refine ⟨rfl, rfl, rfl, rfl, rfl, rfl, hp.symm, ?_⟩
      intro b hb
      exact nf_get_free_block_cursor s size fuel _ c0 hnf b hb

/-- the best-fit variant of the fresh heap, for the C10 witness -/
def c10_bf_s0 : MMState := mm_init 0 4096 AllocationPolicy.ap_BestFit

/-- witness for C10: all three policies applied on fresh heaps -/
theorem c10_policies_frame_witness :
    (trace_c2_s0.policy = AllocationPolicy.ap_FirstFit
      ∧ get_free_block trace_c2_s0 32 100 = some (some 32, trace_c2_s0)
      ∧ trace_c2_s0 = trace_c2_s0)
  ∧ (c10_bf_s0.policy = AllocationPolicy.ap_BestFit
      ∧ get_free_block c10_bf_s0 32 100 = some (some 32, c10_bf_s0)
      ∧ c10_bf_s0 = c10_bf_s0)
  ∧ (trace_c1_s0.policy = AllocationPolicy.ap_NextFit
      ∧ get_free_block trace_c1_s0 32 100
          = some (some 32, { trace_c1_s0 with next_block := some 32 })
      ∧ ({ trace_c1_s0 with next_block := some 32 }).next_block = some 32) :=
  ⟨⟨rfl, rfl, c10_policies_frame.1 trace_c2_s0 32 100 (some 32) trace_c2_s0
      rfl rfl⟩,
    ⟨rfl, rfl, c10_policies_frame.2.1 c10_bf_s0 32 100 (some 32) c10_bf_s0
      rfl rfl⟩,
    ⟨rfl, rfl, (c10_policies_frame.2.2 trace_c1_s0 32 100 (some 32)
        { trace_c1_s0 with next_block := some 32 } rfl rfl).2.2.2.2.2.2.2
        32 rfl⟩⟩

/-! Allocation: the candidate-placement (split) logic, claim C4. -/

/-- reduction of mm_place in the splitting case -/
theorem mm_place_split_eq (t : MMState) (fb bs : Nat)
    (hbs8 : bs % 8 = 0) (hbs : 32 ≤ bs)
    (hsplit : bs + 4 * TYPE_SIZE ≤ SIZE (GET t.mem fb)) :
    mm_place t fb bs =
      (some (fb + TYPE_SIZE),
        { t with
          mem := PUT (PUT (PUT (PUT t.mem fb (PACK bs ALLOC))
                  (fb + bs - TYPE_SIZE) (PACK bs ALLOC))
                  (fb + bs) (PACK (SIZE (GET t.mem fb) - bs) FREE))
                  (fb + SIZE (GET t.mem fb) - TYPE_SIZE)
                  (PACK (SIZE (GET t.mem fb) - bs) FREE) }) := by
  have hfbs8 : SIZE (GET t.mem fb) % 8 = 0 := size_mod8 _
  unfold mm_place
  rw [if_pos hsplit]
  simp only []
  have e1 : GET (PUT t.mem fb (PACK bs ALLOC)) fb = PACK bs ALLOC := by
    rw [get_put, if_pos rfl]
  rw [e1, size_pack_alloc bs hbs8]
  have e2 : GET (PUT (PUT t.mem fb (PACK bs ALLOC))
      (fb + bs - TYPE_SIZE) (PACK bs ALLOC)) fb = PACK bs ALLOC := by
    rw [get_put, if_neg (by unfold TYPE_SIZE; omega), get_put, if_pos rfl]
  rw [e2, size_pack_alloc bs hbs8]
  have e3 : GET (PUT (PUT (PUT t.mem fb (PACK bs ALLOC))
      (fb + bs - TYPE_SIZE) (PACK bs ALLOC)) (fb + bs)
      (PACK (SIZE (GET t.mem fb) - bs) FREE)) (fb + bs)
      = PACK (SIZE (GET t.mem fb) - bs) FREE := by
    rw [get_put, if_pos rfl]
  rw [e3, size_pack_free _ (by omega)]
  have e4 : fb + bs + (SIZE (GET t.mem fb) - bs) - TYPE_SIZE
      = fb + SIZE (GET t.mem fb) - TYPE_SIZE := by
    unfold TYPE_SIZE at *
    omega
  rw [e4]

/-- reduction of mm_place when the whole candidate is taken -/
theorem mm_place_whole_eq (t : MMState) (fb bs : Nat)
    (hnsplit : ¬ bs + 4 * TYPE_SIZE ≤ SIZE (GET t.mem fb)) :
    mm_place t fb bs =
      (some (fb + TYPE_SIZE),
        { t with
          mem := PUT (PUT t.mem fb (PACK (SIZE (GET t.mem fb)) ALLOC))
                  (fb + SIZE (GET t.mem fb) - TYPE_SIZE)
                  (PACK (SIZE (GET t.mem fb)) ALLOC) }) := by
  have hfbs8 : SIZE (GET t.mem fb) % 8 = 0 := size_mod8 _
  unfold mm_place
  rw [if_neg hnsplit]
  simp only []
  have e1 : GET (PUT t.mem fb (PACK (SIZE (GET t.mem fb)) ALLOC)) fb
      = PACK (SIZE (GET t.mem fb)) ALLOC := by
    rw [get_put, if_pos rfl]
  rw [e1, size_pack_alloc _ hfbs8]

/-- mm_malloc funnels a policy-found candidate into the placement code -/
theorem mm_malloc_found_eq (s : MMState) (size fuel : Nat) (hsz : size ≠ 0)
    (fb : Nat) (s1 : MMState)
    (hfind : get_free_block s (ROUND_UP (TYPE_SIZE + size + TYPE_SIZE)) fuel
      = some (some fb, s1)) :
    mm_malloc s size fuel
      = some (mm_place s1 fb (ROUND_UP (TYPE_SIZE + size + TYPE_SIZE))) := by
  unfold mm_malloc
  rw [if_neg hsz]
  simp only []
  rw [hfind]

/-- mm_malloc funnels the block obtained by heap growth into the same
    placement code -/
theorem mm_malloc_growth_eq (s : MMState) (size fuel : Nat) (hsz : size ≠ 0)
    (s1 : MMState)
    (hfind : get_free_block s (ROUND_UP (TYPE_SIZE + size + TYPE_SIZE)) fuel
      = some (none, s1))
    (fb : Nat) (s2 : MMState)
    (hgrow : mm_grow s1 (ROUND_UP (TYPE_SIZE + size + TYPE_SIZE))
      = some (fb, s2)) :
    mm_malloc s size fuel
      = some (mm_place s2 fb (ROUND_UP (TYPE_SIZE + size + TYPE_SIZE))) := by
  unfold mm_malloc
  rw [if_neg hsz]
  simp only []
  rw [hfind]
  simp only []
  rw [hgrow]

/-- when the policy finds nothing and the provider cannot grow, mm_malloc
    returns the failure indicator with the post-search state -/
theorem mm_malloc_growfail_eq (s : MMState) (size fuel : Nat) (hsz : size ≠ 0)
    (s1 : MMState)
    (hfind : get_free_block s (ROUND_UP (TYPE_SIZE + size + TYPE_SIZE)) fuel
      = some (none, s1))
    (hgrow : mm_grow s1 (ROUND_UP (TYPE_SIZE + size + TYPE_SIZE)) = none) :
    mm_malloc s size fuel = some (none, s1) := by
  unfold mm_malloc
  rw [if_neg hsz]
  simp only []
  rw [hfind]
  simp only []
  rw [hgrow]

/-- the placement contract asserted by claim C4 for candidate fb and
    block size bs: the returned pointer is the first word after the
    header, and the candidate is split into an allocated block of exactly
    bs bytes plus a free remainder when its size exceeds bs by at least
    4*TYPE_SIZE = 32 bytes, otherwise allocated whole; no other word of
    memory changes -/
def c4_split_contract (t : MMState) (fb bs : Nat) : Prop :=
    (mm_place t fb bs).1 = some (fb + TYPE_SIZE)
  ∧ (bs + 4 * TYPE_SIZE ≤ SIZE (GET t.mem fb) →
      GET (mm_place t fb bs).2.mem fb = PACK bs ALLOC
      ∧ GET (mm_place t fb bs).2.mem (fb + bs - TYPE_SIZE) = PACK bs ALLOC
      ∧ GET (mm_place t fb bs).2.mem (fb + bs)
          = PACK (SIZE (GET t.mem fb) - bs) FREE
      ∧ GET (mm_place t fb bs).2.mem (fb + SIZE (GET t.mem fb) - TYPE_SIZE)
          = PACK (SIZE (GET t.mem fb) - bs) FREE
      ∧ ∀ a, a ≠ fb → a ≠ fb + bs - TYPE_SIZE → a ≠ fb + bs →
          a ≠ fb + SIZE (GET t.mem fb) - TYPE_SIZE →
          GET (mm_place t fb bs).2.mem a = GET t.mem a)
  ∧ (SIZE (GET t.mem fb) < bs + 4 * TYPE_SIZE →
      GET (mm_place t fb bs).2.mem fb = PACK (SIZE (GET t.mem fb)) ALLOC
      ∧ GET (mm_place t fb bs).2.mem (fb + SIZE (GET t.mem fb) - TYPE_SIZE)
          = PACK (SIZE (GET t.mem fb)) ALLOC
      ∧ ∀ a, a ≠ fb → a ≠ fb + SIZE (GET t.mem fb) - TYPE_SIZE →
          GET (mm_place t fb bs).2.mem a = GET t.mem a)

/-- the placement contract holds for every candidate and 32-aligned
    block size -/
theorem c4_split_contract_holds (t : MMState) (fb bs : Nat)
    (hbs8 : bs % 8 = 0) (hbs : 32 ≤ bs) : c4_split_contract t fb bs := by
  have hfbs8 : SIZE (GET t.mem fb) % 8 = 0 := size_mod8 _
  have hts : TYPE_SIZE = 8 := rfl
  unfold c4_split_contract
  by_cases hsplit : bs + 4 * TYPE_SIZE ≤ SIZE (GET t.mem fb)
  · rw [mm_place_split_eq t fb bs hbs8 hbs hsplit]
    simp only []
    rw [hts] at hsplit ⊢
    refine ⟨by trivial, fun _ => ⟨?_, ?_, ?_, ?_, ?_⟩,
      fun hc => absurd hsplit (by omega)⟩
    · rw [get_put, if_neg (by omega), get_put, if_neg (by omega),
        get_put, if_neg (by omega), get_put, if_pos rfl]
    · rw [get_put, if_neg (by omega), get_put, if_neg (by omega),
        get_put, if_pos rfl]
    · rw [get_put, if_neg (by omega), get_put, if_pos rfl]
    · rw [get_put, if_pos rfl]
    · intro a h1 h2 h3 h4
      rw [get_put, if_neg (by omega), get_put, if_neg (by omega),
        get_put, if_neg (by omega), get_put, if_neg (by omega)]
  · rw [mm_place_whole_eq t fb bs hsplit]
    simp only []
    rw [hts] at hsplit ⊢
    refine ⟨by trivial, fun hc => absurd hc (by omega), fun _ => ⟨?_, ?_, ?_⟩⟩
    · by_cases hfoot : fb = fb + SIZE (GET t.mem fb) - 8
      · rw [get_put, if_pos hfoot]
      · rw [get_put, if_neg hfoot, get_put, if_pos rfl]
    · rw [get_put, if_pos rfl]
    · intro a h1 h2
      rw [get_put, if_neg (by omega), get_put, if_neg (by omega)]

/-- the conclusion of claim C4 at a state, request size and scan fuel -/
def c4_conclusion (s : MMState) (size fuel : Nat) : Prop :=
    (∀ fb s1, get_free_block s (ROUND_UP (TYPE_SIZE + size + TYPE_SIZE)) fuel
        = some (some fb, s1) →
      mm_malloc s size fuel
        = some (mm_place s1 fb (ROUND_UP (TYPE_SIZE + size + TYPE_SIZE))))
  ∧ (∀ s1 fb s2, get_free_block s (ROUND_UP (TYPE_SIZE + size + TYPE_SIZE)) fuel
        = some (none, s1) →
      mm_grow s1 (ROUND_UP (TYPE_SIZE + size + TYPE_SIZE)) = some (fb, s2) →
      mm_malloc s size fuel
        = some (mm_place s2 fb (ROUND_UP (TYPE_SIZE + size + TYPE_SIZE))))
  ∧ (∀ t fb, c4_split_contract t fb (ROUND_UP (TYPE_SIZE + size + TYPE_SIZE)))

/-- C4: for every request size s > 0, the block size is
    ROUND_UP(8 + s + 8); every candidate free block - found by the active
    policy or obtained by growth - is processed by the split logic: if the
    candidate's size exceeds the block size by at least 32 bytes it is
    split into an allocated block of exactly the block size followed
    immediately by a free remainder of the difference, otherwise the whole
    candidate is marked allocated; in both cases the returned pointer is
    the first word after the allocated block's header. -/
theorem c4_candidate_placement (s : MMState) (size fuel : Nat)
    (hsz : size ≠ 0) : c4_conclusion s size fuel := by
  have h32 : ROUND_UP (TYPE_SIZE + size + TYPE_SIZE) % 32 = 0 := round_up_mod32 _
  have hge : 32 ≤ ROUND_UP (TYPE_SIZE + size + TYPE_SIZE) := by
    unfold ROUND_UP BS TYPE_SIZE
    omega
  exact ⟨fun fb s1 h => mm_malloc_found_eq s size fuel hsz fb s1 h,
    fun s1 fb s2 h1 h2 => mm_malloc_growth_eq s size fuel hsz s1 h1 fb s2 h2,
    fun t fb => c4_split_contract_holds t fb _ (by omega) hge⟩

/-- witness for C4 at the fresh first-fit heap and request size 16 -/
theorem c4_candidate_placement_witness :
    (16 : Nat) ≠ 0 ∧ c4_conclusion trace_c2_s0 16 100 :=
  ⟨by decide, c4_candidate_placement trace_c2_s0 16 100 (by decide)⟩

/-! Resource exhaustion (claim C5) and the resize copy path (claim C3). -/

/-- the policy dispatch changes nothing except possibly the next-fit
    cursor -/
theorem get_free_block_frame (s : MMState) (size fuel : Nat) (r : Option Nat)
    (s1 : MMState) (h : get_free_block s size fuel = some (r, s1)) :
    s1.mem = s.mem ∧ s1.heap_start = s.heap_start ∧ s1.heap_end = s.heap_end
      ∧ s1.ds_start = s.ds_start ∧ s1.ds_brk = s.ds_brk
      ∧ s1.ds_cap = s.ds_cap ∧ s1.policy = s.policy := by
  unfold get_free_block at h
  cases hp : s.policy with
  | ap_FirstFit =>
    rw [hp] at h
    rcases hff : ff_get_free_block s size fuel with _ | a <;> rw [hff] at h
    · simp at h
    · simp at h
      obtain ⟨h1, h2⟩ := h
      rw [← h2]
      exact ⟨rfl, rfl, rfl, rfl, rfl, rfl, hp⟩
  | ap_BestFit =>
    rw [hp] at h
    rcases hbf : bf_get_free_block s size fuel with _ | a <;> rw [hbf] at h
    · simp at h
    · simp at h
      obtain ⟨h1, h2⟩ := h
      rw [← h2]
      exact ⟨rfl, rfl, rfl, rfl, rfl, rfl, hp⟩
  | ap_NextFit =>
    rw [hp] at h
    rcases hnf : nf_get_free_block s size fuel with _ | rc <;> rw [hnf] at h
    · simp at h
    · obtain ⟨r0, c0⟩ := rc
      simp at h
      obtain ⟨h1, h2⟩ := h
      rw [← h2]
      exact ⟨rfl, rfl, rfl, rfl, rfl, rfl, rfl⟩

/-- the placement code always returns the payload pointer -/
theorem mm_place_fst (t : MMState) (fb bs : Nat) :
    (mm_place t fb bs).1 = some (fb + TYPE_SIZE) := by
  unfold mm_place
  by_cases h : bs + 4 * TYPE_SIZE ≤ SIZE (GET t.mem fb)
  · rw [if_pos h]
  · rw [if_neg h]

/-- a failing mm_malloc leaves every field except the cursor unchanged -/
theorem mm_malloc_none_frame (s : MMState) (size fuel : Nat) (s2 : MMState)
    (h : mm_malloc s size fuel = some (none, s2)) :
    s2.mem = s.mem ∧ s2.heap_start = s.heap_start ∧ s2.heap_end = s.heap_end
      ∧ s2.ds_start = s.ds_start ∧ s2.ds_brk = s.ds_brk
      ∧ s2.ds_cap = s.ds_cap ∧ s2.policy = s.policy := by
  unfold mm_malloc at h
  by_cases hsz : size = 0
  · rw [if_pos hsz] at h
    simp at h
    rw [← h]
    exact ⟨rfl, rfl, rfl, rfl, rfl, rfl, rfl⟩
  · rw [if_neg hsz] at h
    simp only [] at h
    rcases hgf : get_free_block s (ROUND_UP (TYPE_SIZE + size + TYPE_SIZE)) fuel
        with _ | rs
    · rw [hgf] at h
      simp at h
    · rw [hgf] at h
      obtain ⟨r0, s1⟩ := rs
      rcases r0 with _ | fb
      · simp only [] at h
        rcases hgr : mm_grow s1 (ROUND_UP (TYPE_SIZE + size + TYPE_SIZE))
            with _ | fs
        · rw [hgr] at h
          simp at h
          rw [← h]
          exact get_free_block_frame s _ fuel none s1 hgf
        · rw [hgr] at h
          obtain ⟨fb2, s22⟩ := fs
          simp only [Option.some.injEq] at h
          have hfst := mm_place_fst s22 fb2 (ROUND_UP (TYPE_SIZE + size + TYPE_SIZE))
          rw [h] at hfst
          simp at hfst
      · simp only [Option.some.injEq] at h
        have hfst := mm_place_fst s1 fb (ROUND_UP (TYPE_SIZE + size + TYPE_SIZE))
        rw [h] at hfst
        simp at hfst

/-- mm_grow fails exactly when the provider refuses the extension -/
theorem mm_grow_none_of_sbrk_none (s1 : MMState) (bs : Nat)
    (hsbrk : ds_sbrk s1 (Int.ofNat (MAX CHUNKSIZE bs)) = none) :
    mm_grow s1 bs = none := by
  unfold mm_grow
  simp only []
  rw [hsbrk]

/-- reduction of mm_realloc on the fallback path when the inner
    allocation fails: the failure is returned as is -/
theorem mm_realloc_fallback_none (s : MMState) (p size fuel : Nat)
    (s2 : MMState) (hsz : size ≠ 0)
    (hne : ROUND_UP (TYPE_SIZE + size + TYPE_SIZE)
      ≠ SIZE (GET s.mem (p - TYPE_SIZE)))
    (hlt : ¬ ROUND_UP (TYPE_SIZE + size + TYPE_SIZE)
      < SIZE (GET s.mem (p - TYPE_SIZE)))
    (habs : ¬ (STATUS (GET s.mem (p + SIZE (GET s.mem (p - TYPE_SIZE)))) = FREE
      ∧ ROUND_UP (TYPE_SIZE + size + TYPE_SIZE)
          ≤ SIZE (GET s.mem (p - TYPE_SIZE))
            + SIZE (GET s.mem (p + SIZE (GET s.mem (p - TYPE_SIZE))))))
    (hmal : mm_malloc s size fuel = some (none, s2)) :
    mm_realloc s (some p) size fuel = some (none, s2) := by
  rw [mm_realloc]
  rw [if_neg hsz]
  rw [if_neg hne, if_neg hlt, if_neg habs]
  rw [hmal]

/-- reduction of mm_realloc on the fallback path when the inner
    allocation succeeds: copy (old size - TYPE_SIZE) bytes, free the old
    block, return the new pointer -/
theorem mm_realloc_fallback_some (s : MMState) (p size fuel : Nat)
    (np : Nat) (s2 : MMState) (hsz : size ≠ 0)
    (hne : ROUND_UP (TYPE_SIZE + size + TYPE_SIZE)
      ≠ SIZE (GET s.mem (p - TYPE_SIZE)))
    (hlt : ¬ ROUND_UP (TYPE_SIZE + size + TYPE_SIZE)
      < SIZE (GET s.mem (p - TYPE_SIZE)))
    (habs : ¬ (STATUS (GET s.mem (p + SIZE (GET s.mem (p - TYPE_SIZE)))) = FREE
      ∧ ROUND_UP (TYPE_SIZE + size + TYPE_SIZE)
          ≤ SIZE (GET s.mem (p - TYPE_SIZE))
            + SIZE (GET s.mem (p + SIZE (GET s.mem (p - TYPE_SIZE))))))
    (hmal : mm_malloc s size fuel = some (some np, s2)) :
    mm_realloc s (some p) size fuel
      = some (some np,
          mm_free
            { s2 with
              mem := memcpy_words s2.mem np p
                      ((SIZE (GET s.mem (p - TYPE_SIZE)) - TYPE_SIZE)
                        / TYPE_SIZE) }
            (some p)) := by
  rw [mm_realloc]
  rw [if_neg hsz]
  rw [if_neg hne, if_neg hlt, if_neg habs]
  rw [hmal]

/-- conclusion of the amended claim C5 for allocate -/
def c5_alloc_frame (s : MMState) (size fuel : Nat) (s1 : MMState) : Prop :=
    mm_malloc s size fuel = some (none, s1)
  ∧ s1.mem = s.mem ∧ s1.heap_start = s.heap_start ∧ s1.heap_end = s.heap_end
  ∧ s1.ds_brk = s.ds_brk

/-- conclusion of the amended claim C5 for resize -/
def c5_resize_frame (s : MMState) (p size fuel : Nat) (s2 : MMState) : Prop :=
    mm_realloc s (some p) size fuel = some (none, s2)
  ∧ s2.mem = s.mem ∧ s2.heap_start = s.heap_start ∧ s2.heap_end = s.heap_end
  ∧ s2.ds_brk = s.ds_brk
  ∧ GET s2.mem (p - TYPE_SIZE) = GET s.mem (p - TYPE_SIZE)

/-- C5 (amended): when the provider cannot extend the arena, allocate
    returns the failure indicator and no word of the heap arena,
    heap_start, heap_end or the provider break is mutated (only the
    next-fit cursor may have been reset by the failed search, which is
    what the counterexample exhibits); and when resize's fallback
    allocation fails, resize returns the failure indicator with the heap
    words - hence the original block's header, footer and payload -
    completely untouched. -/
theorem c5_exhaustion_frame :
    (∀ s size fuel s1, size ≠ 0 →
      get_free_block s (ROUND_UP (TYPE_SIZE + size + TYPE_SIZE)) fuel
        = some (none, s1) →
      ds_sbrk s1 (Int.ofNat (MAX CHUNKSIZE
        (ROUND_UP (TYPE_SIZE + size + TYPE_SIZE)))) = none →
      c5_alloc_frame s size fuel s1)
  ∧ (∀ s p size fuel s2, size ≠ 0 →
      ROUND_UP (TYPE_SIZE + size + TYPE_SIZE)
        ≠ SIZE (GET s.mem (p - TYPE_SIZE)) →
      ¬ ROUND_UP (TYPE_SIZE + size + TYPE_SIZE)
        < SIZE (GET s.mem (p - TYPE_SIZE)) →
      ¬ (STATUS (GET s.mem (p + SIZE (GET s.mem (p - TYPE_SIZE)))) = FREE
        ∧ ROUND_UP (TYPE_SIZE + size + TYPE_SIZE)
            ≤ SIZE (GET s.mem (p - TYPE_SIZE))
              + SIZE (GET s.mem (p + SIZE (GET s.mem (p - TYPE_SIZE))))) →
      mm_malloc s size fuel = some (none, s2) →
      c5_resize_frame s p size fuel s2) := by
  constructor
  · intro s size fuel s1 hsz hgf hsbrk
    have hgrow := mm_grow_none_of_sbrk_none s1
      (ROUND_UP (TYPE_SIZE + size + TYPE_SIZE)) hsbrk
    have hmal := mm_malloc_growfail_eq s size fuel hsz s1 hgf hgrow
    obtain ⟨hm, hh1, hh2, _, hh4, _, _⟩ := get_free_block_frame s _ fuel none s1 hgf
    exact ⟨hmal, hm, hh1, hh2, hh4⟩
  · intro s p size fuel s2 hsz hne hlt habs hmal
    have hre := mm_realloc_fallback_none s p size fuel s2 hsz hne hlt habs hmal
    obtain ⟨hm, hh1, hh2, _, hh4, _, _⟩ := mm_malloc_none_frame s size fuel s2 hmal
    exact ⟨hre, hm, hh1, hh2, hh4, by rw [hm]⟩

/-- the post state of the failing allocation on c5_s0 -/
def c5_f1 : MMState := ((mm_malloc c5_s0 2000 100).getD (none, c5_s0)).2

/-- c5_s0 after allocate(16): block [32,64) allocated, payload 40 -/
def c5_w1 : MMState := ((mm_malloc c5_s0 16 100).getD (none, c5_s0)).2

/-- the post state of the failing resize fallback allocation on c5_w1 -/
def c5_w2 : MMState := ((mm_malloc c5_w1 2000 100).getD (none, c5_w1)).2

/-- witness for C5: the failing allocate on the exhausted provider and
    the failing resize(40, 2000) of the allocated block at 40 -/
theorem c5_exhaustion_frame_witness :
    ((2000 : Nat) ≠ 0
      ∧ get_free_block c5_s0 (ROUND_UP (TYPE_SIZE + 2000 + TYPE_SIZE)) 100
          = some (none, c5_f1)
      ∧ ds_sbrk c5_f1 (Int.ofNat (MAX CHUNKSIZE
          (ROUND_UP (TYPE_SIZE + 2000 + TYPE_SIZE)))) = none
      ∧ c5_alloc_frame c5_s0 2000 100 c5_f1)
  ∧ ((2000 : Nat) ≠ 0
      ∧ ROUND_UP (TYPE_SIZE + 2000 + TYPE_SIZE)
          ≠ SIZE (GET c5_w1.mem (40 - TYPE_SIZE))
      ∧ mm_malloc c5_w1 2000 100 = some (none, c5_w2)
      ∧ c5_resize_frame c5_w1 40 2000 100 c5_w2) :=
  ⟨⟨by decide, rfl, rfl,
      c5_exhaustion_frame.1 c5_s0 2000 100 c5_f1 (by decide) rfl rfl⟩,
    ⟨by decide, by decide, rfl,
      c5_exhaustion_frame.2 c5_w1 40 2000 100 c5_w2 (by decide) (by decide)
        (by decide) (by decide) rfl⟩⟩

/-- the word-wise memcpy: copied words read back the source, all other
    addresses are untouched -/
theorem memcpy_words_spec (m : Mem) (dst src : Nat) : ∀ n,
    (∀ j, j < n →
      GET (memcpy_words m dst src n) (dst + j * TYPE_SIZE)
        = GET m (src + j * TYPE_SIZE))
  ∧ (∀ a, (∀ j, j < n → a ≠ dst + j * TYPE_SIZE) →
      GET (memcpy_words m dst src n) a = GET m a) := by
  intro n
  induction n with
  | zero =>
    refine ⟨fun j hj => absurd hj (by omega), fun a _ => rfl⟩
  | succ k ih =>
    constructor
    · intro j hj
      unfold memcpy_words
      rw [get_put]
      by_cases hjk : j = k
      · subst hjk
        rw [if_pos rfl]
      · rw [if_neg (by unfold TYPE_SIZE; omega)]
        exact ih.1 j (by omega)
    · intro a ha
      unfold memcpy_words
      rw [get_put, if_neg (ha k (by omega))]
      exact ih.2 a (fun j hj => ha j (by omega))

/-- C3 counterexample: resize's fallback copy is NOT limited to the old
    payload size.  In the trace, the old block has size 32 (payload 16
    bytes); after resize(40, 40) returns the new payload 72, the word at
    72 + 16 = 88 - the first destination word beyond the old payload
    size - has changed from 0 to 33 = PACK(32, ALLOC), the old block's
    footer tag, showing that old_size - 8 = 24 bytes were copied rather
    than the claimed old_size - 16 = 16. -/
theorem c3_copy_beyond_payload :
    (trace_c2_s1.map fun s => SIZE (GET s.mem (40 - TYPE_SIZE))) = some 32
  ∧ (trace_c2_s1.map fun s => GET s.mem 88) = some 0
  ∧ trace_c2_r.map Prod.fst = some (some 72)
  ∧ (trace_c2_r.map fun rs => GET rs.2.mem 88) = some 33
  ∧ 88 = 72 + (32 - 16)
  ∧ PACK 32 ALLOC = 33
  ∧ (33 : Nat) ≠ 0 := by
  decide

/-- conclusion of the amended claim C3: on the no-absorption growth
    path, resize allocates via mm_malloc, copies exactly
    old_size - TYPE_SIZE bytes (the payload plus the footer word) from
    the old block to the new payload, frees the old block and returns the
    new payload pointer -/
def c3_copy_contract (s : MMState) (p size fuel np : Nat) (s2 : MMState) :
    Prop :=
    mm_realloc s (some p) size fuel
      = some (some np,
          mm_free
            { s2 with
              mem := memcpy_words s2.mem np p
                      ((SIZE (GET s.mem (p - TYPE_SIZE)) - TYPE_SIZE)
                        / TYPE_SIZE) }
            (some p))
  ∧ ∀ j, j < (SIZE (GET s.mem (p - TYPE_SIZE)) - TYPE_SIZE) / TYPE_SIZE →
      GET (memcpy_words s2.mem np p
            ((SIZE (GET s.mem (p - TYPE_SIZE)) - TYPE_SIZE) / TYPE_SIZE))
          (np + j * TYPE_SIZE)
        = GET s2.mem (p + j * TYPE_SIZE)

/-- C3 (amended): when resize grows a block and no adjacent absorption
    is taken, it allocates a new block, copies exactly old_size - 8 bytes
    (one word more than the payload: the payload plus the old footer
    word) from the old block to the new payload, frees the old block and
    returns the new payload pointer. -/
theorem c3_fallback_copy (s : MMState) (p size fuel np : Nat) (s2 : MMState)
    (hsz : size ≠ 0)
    (hne : ROUND_UP (TYPE_SIZE + size + TYPE_SIZE)
      ≠ SIZE (GET s.mem (p - TYPE_SIZE)))
    (hlt : ¬ ROUND_UP (TYPE_SIZE + size + TYPE_SIZE)
      < SIZE (GET s.mem (p - TYPE_SIZE)))
    (habs : ¬ (STATUS (GET s.mem (p + SIZE (GET s.mem (p - TYPE_SIZE)))) = FREE
      ∧ ROUND_UP (TYPE_SIZE + size + TYPE_SIZE)
          ≤ SIZE (GET s.mem (p - TYPE_SIZE))
            + SIZE (GET s.mem (p + SIZE (GET s.mem (p - TYPE_SIZE))))))
    (hmal : mm_malloc s size fuel = some (some np, s2)) :
    c3_copy_contract s p size fuel np s2 := by
  refine ⟨mm_realloc_fallback_some s p size fuel np s2 hsz hne hlt habs hmal,
    fun j hj => (memcpy_words_spec s2.mem np p _).1 j hj⟩

/-- the packed state of trace_c2_s1, for the C3 witness -/
def c3_wS : MMState := trace_c2_s1.getD trace_c2_s0

/-- the post state of the inner allocation in the C3 witness -/
def c3_wS2 : MMState := ((mm_malloc c3_wS 40 100).getD (none, c3_wS)).2

/-- witness for C3 (amended) on the concrete trace -/
theorem c3_fallback_copy_witness :
    ((40 : Nat) ≠ 0
      ∧ ROUND_UP (TYPE_SIZE + 40 + TYPE_SIZE)
          ≠ SIZE (GET c3_wS.mem (40 - TYPE_SIZE))
      ∧ mm_malloc c3_wS 40 100 = some (some 72, c3_wS2))
  ∧ c3_copy_contract c3_wS 40 40 100 72 c3_wS2 :=
  ⟨⟨by decide, by decide, rfl⟩,
    c3_fallback_copy c3_wS 40 40 100 72 c3_wS2 (by decide) (by decide)
      (by decide) (by decide) rfl⟩

/-! Alignment invariant (claim C9): every stored word carries a size that
    is a multiple of 32, heap bounds and the cursor are 32-aligned, so
    every block header the program ever navigates to is 32-aligned and
    every returned payload pointer is congruent to 8 modulo 32. -/

/-- every word in memory has a size field that is a multiple of 32 -/
def good_mem (m : Mem) : Prop := ∀ a, SIZE (GET m a) % 32 = 0

/-- the alignment invariant on the allocator state -/
def good_state (s : MMState) : Prop :=
    s.heap_start % 32 = 0 ∧ s.heap_end % 32 = 0
  ∧ (∀ c, s.next_block = some c → c % 32 = 0) ∧ good_mem s.mem

/-- packed tags preserve 32-divisibility of the size field -/
theorem size_pack_mod32 (x st : Nat) (hx : x % 32 = 0) (hst : st < 8) :
    SIZE (PACK x st) % 32 = 0 := by
  unfold PACK
  rw [lor_eq_add_of_aligned x st (by omega) hst]
  unfold SIZE
  omega

/-- writing a word whose size field is a multiple of 32 preserves the
    invariant -/
theorem good_mem_put (m : Mem) (q v : Nat) (hm : good_mem m)
    (hv : SIZE v % 32 = 0) : good_mem (PUT m q v) := by
  intro a
  rw [get_put]
  by_cases h : a = q
  · rw [if_pos h]
    exact hv
  · rw [if_neg h]
    exact hm a

/-- writing a packed tag with 32-divisible size preserves the invariant -/
theorem good_mem_put_pack (m : Mem) (q x st : Nat) (hm : good_mem m)
    (hx : x % 32 = 0) (hst : st < 8) : good_mem (PUT m q (PACK x st)) :=
  good_mem_put m q _ hm (size_pack_mod32 x st hx hst)

/-- the word-wise memcpy only moves existing words -/
theorem good_mem_memcpy (m : Mem) (dst src : Nat) (hm : good_mem m) :
    ∀ n, good_mem (memcpy_words m dst src n) := by
  intro n
  induction n with
  | zero => exact hm
  | succ k ih =>
    unfold memcpy_words
    exact good_mem_put _ _ _ ih (hm _)

/-- zero-filling preserves the invariant -/
theorem good_mem_memset (m : Mem) (q : Nat) (hm : good_mem m) :
    ∀ n, good_mem (memset_words m q n) := by
  intro n
  induction n with
  | zero => exact hm
  | succ k ih =>
    unfold memset_words
    exact good_mem_put _ _ _ ih (by decide)

/-- the first-fit scan only ever visits 32-aligned addresses -/
theorem ff_scan_aligned (m : Mem) (he size : Nat) (hm : good_mem m) :
    ∀ fuel cur r, cur % 32 = 0 → ff_scan m he size fuel cur = some (some r) →
      r % 32 = 0 := by
  intro fuel
  induction fuel with
  | zero =>
    intro cur r hc h
    simp [ff_scan] at h
  | succ k ih =>
    intro cur r hc h
    simp only [ff_scan] at h
    by_cases h1 : cur < he
    · rw [if_pos h1] at h
      by_cases h2 : STATUS (GET m cur) = FREE ∧ size ≤ SIZE (GET m cur)
      · rw [if_pos h2] at h
        simp at h
        omega
      · rw [if_neg h2] at h
        exact ih (cur + SIZE (GET m cur)) r (by have := hm cur; omega) h
    · rw [if_neg h1] at h
      simp at h

/-- the next-fit scan keeps the cursor 32-aligned and returns 32-aligned
    blocks -/
theorem nf_scan_aligned (m : Mem) (hs he init size : Nat) (hm : good_mem m)
    (hhs : hs % 32 = 0) :
    ∀ fuel cur r c, cur % 32 = 0 →
      nf_scan m hs he init size fuel cur = some (r, c) →
      c % 32 = 0 ∧ ∀ b, r = some b → b % 32 = 0 := by
  intro fuel
  induction fuel with
  | zero =>
    intro cur r c hc h
    simp [nf_scan] at h
  | succ k ih =>
    intro cur r c hc h
    simp only [nf_scan] at h
    by_cases h1 : STATUS (GET m cur) = FREE ∧ size ≤ SIZE (GET m cur)
    · rw [if_pos h1] at h
      simp only [Option.some.injEq, Prod.mk.injEq] at h
      obtain ⟨hr, hcc⟩ := h
      subst hr
      subst hcc
      exact ⟨hc, fun b hb => by rw [← Option.some.injEq cur b |>.mp hb]; exact hc⟩
    · rw [if_neg h1] at h
      have hc2 : (if he ≤ cur + SIZE (GET m cur) then hs
          else cur + SIZE (GET m cur)) % 32 = 0 := by
        by_cases hw : he ≤ cur + SIZE (GET m cur)
        · rw [if_pos hw]
          exact hhs
        · rw [if_neg hw]
          have := hm cur
          omega
      by_cases h2 : (if he ≤ cur + SIZE (GET m cur) then hs
          else cur + SIZE (GET m cur)) = init
      · rw [if_pos h2] at h
        simp only [Option.some.injEq, Prod.mk.injEq] at h
        obtain ⟨hr, hcc⟩ := h
        subst hcc
        exact ⟨hc2, fun b hb => absurd (hr ▸ hb) (by simp)⟩
      · rw [if_neg h2] at h
        exact ih _ r c hc2 h

/-- the best-fit scan returns 32-aligned blocks -/
theorem bf_scan_aligned (m : Mem) (he size : Nat) (hm : good_mem m) :
    ∀ fuel cur best bestd r, cur % 32 = 0 →
      (∀ b, best = some b → b % 32 = 0) →
      bf_scan m he size fuel cur best bestd = some r →
      ∀ b, r = some b → b % 32 = 0 := by
  intro fuel
  induction fuel with
  | zero =>
    intro cur best bestd r hc hb h
    simp [bf_scan] at h
  | succ k ih =>
    intro cur best bestd r hc hb h
    simp only [bf_scan] at h
    by_cases h1 : cur < he
    · rw [if_pos h1] at h
      have hnext : (cur + SIZE (GET m cur)) % 32 = 0 := by
        have := hm cur
        omega
      by_cases h2 : STATUS (GET m cur) = FREE
      · rw [if_pos h2] at h
        by_cases h3 : size ≤ SIZE (GET m cur)
        · rw [if_pos h3] at h
          by_cases h4 : SIZE (GET m cur) - size < bestd
          · rw [if_pos h4] at h
            by_cases h5 : SIZE (GET m cur) - size = 0
            · rw [if_pos h5] at h
              simp only [Option.some.injEq] at h
              intro b hbb
              rw [← h] at hbb
              simp at hbb
              omega
            · rw [if_neg h5] at h
              exact ih _ _ _ r hnext
                (fun b hbb => by rw [← Option.some.injEq cur b |>.mp hbb]; exact hc) h
          · rw [if_neg h4] at h
            exact ih _ _ _ r hnext hb h
        · rw [if_neg h3] at h
          exact ih _ _ _ r hnext hb h
      · rw [if_neg h2] at h
        exact ih _ _ _ r hnext hb h
    · rw [if_neg h1] at h
      simp only [Option.some.injEq] at h
      exact fun b hbb => hb b (h ▸ hbb)

/-- the policy dispatch preserves the invariant and returns 32-aligned
    candidates -/
theorem get_free_block_aligned (s : MMState) (size fuel : Nat)
    (r : Option Nat) (s1 : MMState) (hg : good_state s)
    (h : get_free_block s size fuel = some (r, s1)) :
    good_state s1 ∧ (∀ b, r = some b → b % 32 = 0) := by
  obtain ⟨hhs, hhe, hcur, hm⟩ := hg
  unfold get_free_block at h
  cases hp : s.policy with
  | ap_FirstFit =>
    rw [hp] at h
    rcases hff : ff_get_free_block s size fuel with _ | a <;> rw [hff] at h
    · simp at h
    · simp at h
      obtain ⟨h1, h2⟩ := h
      rw [← h2]
      refine ⟨⟨hhs, hhe, hcur, hm⟩, fun b hb => ?_⟩
      apply ff_scan_aligned s.mem s.heap_end size hm fuel s.heap_start b hhs
      unfold ff_get_free_block at hff
      rw [hff, h1, hb]
  | ap_BestFit =>
    rw [hp] at h
    rcases hbf : bf_get_free_block s size fuel with _ | a <;> rw [hbf] at h
    · simp at h
    · simp at h
      obtain ⟨h1, h2⟩ := h
      rw [← h2]
      refine ⟨⟨hhs, hhe, hcur, hm⟩, fun b hb => ?_⟩
      apply bf_scan_aligned s.mem s.heap_end size hm fuel s.heap_start none
        SIZE_MAX64 a hhs (by simp)
      · unfold bf_get_free_block at hbf
        exact hbf
      · rw [h1, hb]
  | ap_NextFit =>
    rw [hp] at h
    have hstart : (match s.next_block with
        | none => s.heap_start
        | some c => if s.heap_end ≤ c then s.heap_start else c) % 32 = 0 := by
      cases hnb : s.next_block with
      | none => exact hhs
      | some c =>
        simp only []
        by_cases hw : s.heap_end ≤ c
        · rw [if_pos hw]
          exact hhs
        · rw [if_neg hw]
          exact hcur c hnb
    rcases hnf : nf_get_free_block s size fuel with _ | rc <;> rw [hnf] at h
    · simp at h
    · obtain ⟨r0, c0⟩ := rc
      simp at h
      obtain ⟨h1, h2⟩ := h
      simp only [nf_get_free_block] at hnf
      rcases hscan : nf_scan s.mem s.heap_start s.heap_end
          (match s.next_block with
            | none => s.heap_start
            | some c => if s.heap_end ≤ c then s.heap_start else c) size fuel
          (match s.next_block with
            | none => s.heap_start
            | some c => if s.heap_end ≤ c then s.heap_start else c)
          with _ | rc2
      · rw [hscan] at hnf
        simp at hnf
      · rw [hscan] at hnf
        obtain ⟨rr, cc⟩ := rc2
        simp only [Option.some.injEq, Prod.mk.injEq] at hnf
        obtain ⟨hra, hca⟩ := hnf
        have halign := nf_scan_aligned s.mem s.heap_start s.heap_end _ size hm
          hhs fuel _ rr cc hstart hscan
        constructor
        · rw [← h2]
          refine ⟨hhs, hhe, ?_, hm⟩
          intro c hc
          simp only [] at hc
          rw [← hca] at hc
          simp at hc
          rw [← hc]
          exact halign.1
        · intro b hb
          refine halign.2 b ?_
          rw [hra, h1]
          exact hb

/-- the placement code preserves the invariant and returns the payload
    pointer one word past the candidate -/
theorem mm_place_good (t : MMState) (fb bs : Nat) (hg : good_state t)
    (hbs : bs % 32 = 0) :
    good_state (mm_place t fb bs).2
      ∧ (mm_place t fb bs).1 = some (fb + TYPE_SIZE) := by
  obtain ⟨hhs, hhe, hcur, hm⟩ := hg
  refine ⟨?_, mm_place_fst t fb bs⟩
  unfold mm_place
  by_cases hc : bs + 4 * TYPE_SIZE ≤ SIZE (GET t.mem fb)
  · rw [if_pos hc]
    simp only []
    refine ⟨hhs, hhe, hcur, ?_⟩
    refine good_mem_put_pack _ _ _ _ ?_ (by have := hm fb; omega) (by decide)
    refine good_mem_put_pack _ _ _ _ ?_ (by have := hm fb; omega) (by decide)
    refine good_mem_put_pack _ _ _ _ ?_ hbs (by decide)
    exact good_mem_put_pack _ _ _ _ hm hbs (by decide)
  · rw [if_neg hc]
    simp only []
    refine ⟨hhs, hhe, hcur, ?_⟩
    refine good_mem_put_pack _ _ _ _ ?_ (hm fb) (by decide)
    exact good_mem_put_pack _ _ _ _ hm (hm fb) (by decide)

/-- a successful ds_sbrk changes only the break -/
theorem ds_sbrk_frame (s : MMState) (d : Int) (s1 : MMState)
    (h : ds_sbrk s d = some s1) :
    s1.mem = s.mem ∧ s1.heap_start = s.heap_start ∧ s1.heap_end = s.heap_end
      ∧ s1.next_block = s.next_block ∧ s1.policy = s.policy
      ∧ s1.ds_start = s.ds_start ∧ s1.ds_cap = s.ds_cap := by
  unfold ds_sbrk at h
  simp only [] at h
  by_cases hcnd : Int.ofNat s.ds_start ≤ Int.ofNat s.ds_brk + d
      ∧ Int.ofNat s.ds_brk + d ≤ Int.ofNat s.ds_cap
  · rw [if_pos hcnd] at h
    simp at h
    rw [← h]
    exact ⟨rfl, rfl, rfl, rfl, rfl, rfl, rfl⟩
  · rw [if_neg hcnd] at h
    simp at h

/-- heap growth preserves the invariant and yields a 32-aligned
    candidate -/
theorem mm_grow_good (s : MMState) (bs : Nat) (hg : good_state s)
    (fb : Nat) (s2 : MMState) (h : mm_grow s bs = some (fb, s2)) :
    good_state s2 ∧ fb % 32 = 0 := by
  obtain ⟨hhs, hhe, hcur, hm⟩ := hg
  unfold mm_grow at h
  simp only [] at h
  rcases hds : ds_sbrk s (Int.ofNat (MAX CHUNKSIZE bs)) with _ | s1 <;>
    rw [hds] at h
  · simp at h
  · obtain ⟨hdm, hdhs, hdhe, hdnb, hdpol, hdss, hdsc⟩ :=
      ds_sbrk_frame s _ s1 hds
    simp only [Option.some.injEq, Prod.mk.injEq] at h
    obtain ⟨hfb, hs2⟩ := h
    rw [← hs2]
    have hnhe : (s1.ds_brk - TYPE_SIZE) / BS * BS % 32 = 0 := by
      unfold TYPE_SIZE BS
      omega
    have hmem1 : good_mem s1.mem := by
      rw [hdm]
      exact hm
    constructor
    · refine ⟨by rw [hdhs]; exact hhs, hnhe, ?_, ?_⟩
      · intro c hc
        simp only [] at hc
        rw [hdnb] at hc
        exact hcur c hc
      · simp only []
        refine good_mem_put_pack _ _ _ _ ?_ (by decide) (by decide)
        by_cases hfp : STATUS (GET s1.mem (s.heap_end - TYPE_SIZE)) = FREE
        · rw [if_pos hfp, if_pos hfp]
          refine good_mem_put_pack _ _ _ _ ?_ ?_ (by decide)
          · refine good_mem_put_pack _ _ _ _ hmem1 ?_ (by decide)
            have h1 := hmem1 (s.heap_end - TYPE_SIZE)
            unfold TYPE_SIZE BS at *
            omega
          · have h1 := hmem1 (s.heap_end - TYPE_SIZE)
            unfold TYPE_SIZE BS at *
            omega
        · rw [if_neg hfp, if_neg hfp]
          refine good_mem_put_pack _ _ _ _ ?_ ?_ (by decide)
          · refine good_mem_put_pack _ _ _ _ hmem1 ?_ (by decide)
            unfold TYPE_SIZE BS at *
            omega
          · unfold TYPE_SIZE BS at *
            omega
    · rw [← hfb]
      by_cases hfp : STATUS (GET s1.mem (s.heap_end - TYPE_SIZE)) = FREE
      · rw [if_pos hfp]
        have h1 := hmem1 (s.heap_end - TYPE_SIZE)
        omega
      · rw [if_neg hfp]
        exact hhe

/-- mm_malloc preserves the invariant; a returned payload pointer is
    congruent to 8 modulo 32 -/
theorem mm_malloc_good (s : MMState) (size fuel : Nat) (hg : good_state s)
    (r : Option Nat) (s3 : MMState)
    (h : mm_malloc s size fuel = some (r, s3)) :
    good_state s3 ∧ ∀ p, r = some p → p % 32 = 8 := by
  unfold mm_malloc at h
  by_cases hsz : size = 0
  · rw [if_pos hsz] at h
    simp at h
    obtain ⟨h1, h2⟩ := h
    rw [← h2]
    refine ⟨hg, fun p hp => ?_⟩
    rw [← h1] at hp
    simp at hp
  · rw [if_neg hsz] at h
    simp only [] at h
    have hbs : ROUND_UP (TYPE_SIZE + size + TYPE_SIZE) % 32 = 0 :=
      round_up_mod32 _
    rcases hgf : get_free_block s (ROUND_UP (TYPE_SIZE + size + TYPE_SIZE)) fuel
        with _ | rs <;> rw [hgf] at h
    · simp at h
    · obtain ⟨r0, s1⟩ := rs
      have hal := get_free_block_aligned s _ fuel r0 s1 hg hgf
      rcases r0 with _ | fb
      · simp only [] at h
        rcases hgr : mm_grow s1 (ROUND_UP (TYPE_SIZE + size + TYPE_SIZE))
            with _ | fs <;> rw [hgr] at h
        · simp at h
          obtain ⟨h1, h2⟩ := h
          rw [← h2]
          refine ⟨hal.1, fun p hp => ?_⟩
          rw [← h1] at hp
          simp at hp
        · obtain ⟨fb2, s22⟩ := fs
          simp only [Option.some.injEq] at h
          have hgg := mm_grow_good s1 _ hal.1 fb2 s22 hgr
          have hpg := mm_place_good s22 fb2
            (ROUND_UP (TYPE_SIZE + size + TYPE_SIZE)) hgg.1 hbs
          constructor
          · have h2 : (mm_place s22 fb2
                (ROUND_UP (TYPE_SIZE + size + TYPE_SIZE))).2 = s3 := by
              rw [h]
            rw [← h2]
            exact hpg.1
          · intro p hp
            have h1 : (mm_place s22 fb2
                (ROUND_UP (TYPE_SIZE + size + TYPE_SIZE))).1 = r := by
              rw [h]
            rw [hpg.2, hp] at h1
            simp only [Option.some.injEq] at h1
            have := hgg.2
            unfold TYPE_SIZE at h1
            omega
      · simp only [Option.some.injEq] at h
        have hpg := mm_place_good s1 fb
          (ROUND_UP (TYPE_SIZE + size + TYPE_SIZE)) hal.1 hbs
        constructor
        · have h2 : (mm_place s1 fb
              (ROUND_UP (TYPE_SIZE + size + TYPE_SIZE))).2 = s3 := by
            rw [h]
          rw [← h2]
          exact hpg.1
        · intro p hp
          have h1 : (mm_place s1 fb
              (ROUND_UP (TYPE_SIZE + size + TYPE_SIZE))).1 = r := by
            rw [h]
          rw [hpg.2, hp] at h1
          simp only [Option.some.injEq] at h1
          have := hal.2 fb rfl
          unfold TYPE_SIZE at h1
          omega


/-- the free-marking writes preserve the invariant -/
theorem mm_free_mark_good (m : Mem) (head_ptr : Nat) (hm : good_mem m) :
    good_mem (mm_free_mark m head_ptr) := by
  unfold mm_free_mark
  refine good_mem_put_pack _ _ _ _ ?_ (hm head_ptr) (by decide)
  exact good_mem_put_pack _ _ _ _ hm (hm head_ptr) (by decide)

/-- left coalescing preserves the invariant and the 32-divisibility of
    the running size -/
theorem mm_free_coalesce_left_good (m2 : Mem) (head_ptr size0 : Nat)
    (hm : good_mem m2) (hs0 : size0 % 32 = 0) :
    good_mem (mm_free_coalesce_left m2 head_ptr size0).2.2
      ∧ (mm_free_coalesce_left m2 head_ptr size0).2.1 % 32 = 0 := by
  unfold mm_free_coalesce_left
  by_cases hc : STATUS (GET m2 (head_ptr - TYPE_SIZE)) = FREE
  · rw [if_pos hc]
    simp only []
    have hsz : (size0 + SIZE (GET m2 (head_ptr - TYPE_SIZE))) % 32 = 0 := by
      have := hm (head_ptr - TYPE_SIZE)
      omega
    refine ⟨?_, hsz⟩
    refine good_mem_put_pack _ _ _ _ ?_ hsz (by decide)
    exact good_mem_put_pack _ _ _ _ hm hsz (by decide)
  · rw [if_neg hc]
    exact ⟨hm, hs0⟩

/-- right coalescing preserves the invariant and the 32-divisibility of
    the running size -/
theorem mm_free_coalesce_right_good (m4 : Mem) (head1 size1 : Nat)
    (hm : good_mem m4) (hs1 : size1 % 32 = 0) :
    good_mem (mm_free_coalesce_right m4 head1 size1).2
      ∧ (mm_free_coalesce_right m4 head1 size1).1 % 32 = 0 := by
  unfold mm_free_coalesce_right
  by_cases hc : STATUS (GET m4 (head1 + SIZE (GET m4 head1))) = FREE
  · rw [if_pos hc]
    simp only []
    have hsz : (size1 + SIZE (GET m4 (head1 + SIZE (GET m4 head1)))) % 32
        = 0 := by
      have := hm (head1 + SIZE (GET m4 head1))
      omega
    refine ⟨?_, hsz⟩
    refine good_mem_put_pack _ _ _ _ ?_ hsz (by decide)
    exact good_mem_put_pack _ _ _ _ hm hsz (by decide)
  · rw [if_neg hc]
    exact ⟨hm, hs1⟩

/-- the shrink step preserves the invariant (heap_end moves down by a
    multiple of 32) -/
theorem mm_free_shrink_good (s : MMState) (head1 size2 : Nat) (m6 : Mem)
    (hhs : s.heap_start % 32 = 0) (hhe : s.heap_end % 32 = 0)
    (hcur : ∀ c, s.next_block = some c → c % 32 = 0)
    (hm : good_mem m6) (hs2 : size2 % 32 = 0) :
    good_state (mm_free_shrink s head1 size2 m6) := by
  unfold mm_free_shrink
  by_cases hc : head1 + SIZE (GET m6 head1) = s.heap_end
      ∧ SHRINKTHLD ≤ size2
  · rw [if_pos hc]
    simp only []
    rcases hds : ds_sbrk { s with mem := m6 } (-(Int.ofNat size2))
        with _ | t
    · simp only []
      refine ⟨hhs, ?_, hcur,
        good_mem_put_pack _ _ _ _ hm (by decide) (by decide)⟩
      show (s.heap_end - size2) % 32 = 0
      omega
    · obtain ⟨hdm, hdhs, hdhe, hdnb, _, _, _⟩ :=
        ds_sbrk_frame { s with mem := m6 } _ t hds
      simp only []
      refine ⟨by rw [hdhs]; exact hhs, by rw [hdhe]; simp only []; omega,
        ?_, ?_⟩
      · intro c hcc
        simp only [] at hcc
        rw [hdnb] at hcc
        exact hcur c hcc
      · simp only []
        refine good_mem_put_pack _ _ _ _ ?_ (by decide) (by decide)
        rw [hdm]
        exact hm
  · rw [if_neg hc]
    exact ⟨hhs, hhe, hcur, hm⟩

/-- mm_free preserves the invariant -/
theorem mm_free_good (s : MMState) (ptr : Option Nat) (hg : good_state s) :
    good_state (mm_free s ptr) := by
  obtain ⟨hhs, hhe, hcur, hm⟩ := hg
  rcases ptr with _ | p
  · exact ⟨hhs, hhe, hcur, hm⟩
  · rw [mm_free]
    by_cases h0 : STATUS (GET s.mem (p - TYPE_SIZE)) = FREE
    · rw [if_pos h0]
      exact ⟨hhs, hhe, hcur, hm⟩
    · rw [if_neg h0]
      have hmark := mm_free_mark_good s.mem (p - TYPE_SIZE) hm
      have hleft := mm_free_coalesce_left_good (mm_free_mark s.mem (p - TYPE_SIZE))
        (p - TYPE_SIZE) (SIZE (GET s.mem (p - TYPE_SIZE))) hmark (hm _)
      have hright := mm_free_coalesce_right_good
        (mm_free_coalesce_left (mm_free_mark s.mem (p - TYPE_SIZE))
          (p - TYPE_SIZE) (SIZE (GET s.mem (p - TYPE_SIZE)))).2.2
        (mm_free_coalesce_left (mm_free_mark s.mem (p - TYPE_SIZE))
          (p - TYPE_SIZE) (SIZE (GET s.mem (p - TYPE_SIZE)))).1
        (mm_free_coalesce_left (mm_free_mark s.mem (p - TYPE_SIZE))
          (p - TYPE_SIZE) (SIZE (GET s.mem (p - TYPE_SIZE)))).2.1
        hleft.1 hleft.2
      exact mm_free_shrink_good s _ _ _ hhs hhe hcur hright.1 hright.2

/-- the sum of two stored sizes is a multiple of 32 -/
theorem good_mem_sum_two (m : Mem) (a b : Nat) (hm : good_mem m) :
    (SIZE (GET m a) + SIZE (GET m b)) % 32 = 0 := by
  have h1 := hm a
  have h2 := hm b
  omega

/-- the in-place shrink writes preserve the invariant -/
theorem mm_realloc_shrink_good (s : MMState) (p old_size new_size : Nat)
    (hm : good_mem s.mem) (hold : old_size % 32 = 0)
    (hnew : new_size % 32 = 0) :
    good_mem (mm_realloc_shrink s p old_size new_size) := by
  have hdiff : (old_size - new_size) % 32 = 0 := by omega
  unfold mm_realloc_shrink
  simp only []
  refine good_mem_put_pack _ _ _ _ ?_ hnew (by decide)
  refine good_mem_put_pack _ _ _ _ ?_ hnew (by decide)
  split
  · refine good_mem_put_pack _ _ _ _ ?_ ?_ (by decide)
    · refine good_mem_put_pack _ _ _ _ ?_ ?_ (by decide)
      · exact good_mem_put_pack _ _ _ _
          (good_mem_put_pack _ _ _ _ hm hdiff (by decide)) hdiff (by decide)
      · exact good_mem_sum_two _ _ _ (good_mem_put_pack _ _ _ _
          (good_mem_put_pack _ _ _ _ hm hdiff (by decide)) hdiff (by decide))
    · exact good_mem_sum_two _ _ _ (good_mem_put_pack _ _ _ _
        (good_mem_put_pack _ _ _ _ hm hdiff (by decide)) hdiff (by decide))
  · exact good_mem_put_pack _ _ _ _
      (good_mem_put_pack _ _ _ _ hm hdiff (by decide)) hdiff (by decide)

/-- the absorb writes preserve the invariant -/
theorem mm_realloc_absorb_good (s : MMState)
    (p old_size next_size new_size : Nat) (hm : good_mem s.mem)
    (hcomb : (old_size + next_size - new_size) % 32 = 0)
    (hnew : new_size % 32 = 0) :
    good_mem (mm_realloc_absorb s p old_size next_size new_size) := by
  unfold mm_realloc_absorb
  simp only []
  refine good_mem_put_pack _ _ _ _ ?_ hnew (by decide)
  refine good_mem_put_pack _ _ _ _ ?_ hnew (by decide)
  refine good_mem_put_pack _ _ _ _ ?_ hcomb (by decide)
  exact good_mem_put_pack _ _ _ _ hm hcomb (by decide)

/-- mm_realloc preserves the invariant; a returned pointer is congruent
    to 8 modulo 32 (given that its input pointer was) -/
theorem mm_realloc_good (s : MMState) (ptr : Option Nat) (size fuel : Nat)
    (hg : good_state s) (hptr : ∀ q, ptr = some q → q % 32 = 8)
    (r : Option Nat) (s3 : MMState)
    (h : mm_realloc s ptr size fuel = some (r, s3)) :
    good_state s3 ∧ ∀ q, r = some q → q % 32 = 8 := by
  rcases ptr with _ | p
  · exact mm_malloc_good s size fuel hg r s3 h
  · have hp8 : p % 32 = 8 := hptr p rfl
    rw [mm_realloc] at h
    by_cases hsz : size = 0
    · rw [if_pos hsz] at h
      simp at h
      obtain ⟨h1, h2⟩ := h
      rw [← h2]
      refine ⟨mm_free_good s (some p) hg, fun q hq => ?_⟩
      rw [← h1] at hq
      simp at hq
    · rw [if_neg hsz] at h
      have hold : SIZE (GET s.mem (p - TYPE_SIZE)) % 32 = 0 := hg.2.2.2 _
      have hnew : ROUND_UP (TYPE_SIZE + size + TYPE_SIZE) % 32 = 0 :=
        round_up_mod32 _
      by_cases heq : ROUND_UP (TYPE_SIZE + size + TYPE_SIZE)
          = SIZE (GET s.mem (p - TYPE_SIZE))
      · rw [if_pos heq] at h
        simp at h
        obtain ⟨h1, h2⟩ := h
        rw [← h2]
        refine ⟨hg, fun q hq => ?_⟩
        rw [← h1] at hq
        simp at hq
        omega
      · rw [if_neg heq] at h
        by_cases hlt : ROUND_UP (TYPE_SIZE + size + TYPE_SIZE)
            < SIZE (GET s.mem (p - TYPE_SIZE))
        · rw [if_pos hlt] at h
          simp at h
          obtain ⟨h1, h2⟩ := h
          rw [← h2]
          refine ⟨⟨hg.1, hg.2.1, hg.2.2.1,
            mm_realloc_shrink_good s p _ _ hg.2.2.2 hold hnew⟩,
            fun q hq => ?_⟩
          rw [← h1] at hq
          simp at hq
          omega
        · rw [if_neg hlt] at h
          by_cases habs : STATUS (GET s.mem
                (p + SIZE (GET s.mem (p - TYPE_SIZE)))) = FREE
              ∧ ROUND_UP (TYPE_SIZE + size + TYPE_SIZE)
                ≤ SIZE (GET s.mem (p - TYPE_SIZE))
                  + SIZE (GET s.mem (p + SIZE (GET s.mem (p - TYPE_SIZE))))
          · rw [if_pos habs] at h
            simp at h
            obtain ⟨h1, h2⟩ := h
            rw [← h2]
            have hnx : SIZE (GET s.mem
                (p + SIZE (GET s.mem (p - TYPE_SIZE)))) % 32 = 0 :=
              hg.2.2.2 _
            refine ⟨⟨hg.1, hg.2.1, hg.2.2.1,
              mm_realloc_absorb_good s p _ _ _ hg.2.2.2 (by omega) hnew⟩,
              fun q hq => ?_⟩
            rw [← h1] at hq
            simp at hq
            omega
          · rw [if_neg habs] at h
            simp only [] at h
            rcases hmal : mm_malloc s size fuel with _ | rs2 <;>
              rw [hmal] at h
            · simp at h
            · obtain ⟨r2, s2⟩ := rs2
              have hmg := mm_malloc_good s size fuel hg r2 s2 hmal
              rcases r2 with _ | np
              · simp at h
                obtain ⟨h1, h2⟩ := h
                rw [← h2]
                refine ⟨hmg.1, fun q hq => ?_⟩
                rw [← h1] at hq
                simp at hq
              · simp at h
                obtain ⟨h1, h2⟩ := h
                rw [← h2]
                refine ⟨mm_free_good _ (some p)
                  ⟨hmg.1.1, hmg.1.2.1, hmg.1.2.2.1,
                    good_mem_memcpy _ _ _ hmg.1.2.2.2 _⟩, fun q hq => ?_⟩
                rw [← h1] at hq
                simp at hq
                rw [← hq]
                exact hmg.2 np rfl

/-- mm_calloc preserves the invariant; a returned pointer is congruent
    to 8 modulo 32 -/
theorem mm_calloc_good (s : MMState) (nmemb size fuel : Nat)
    (hg : good_state s) (r : Option Nat) (s3 : MMState)
    (h : mm_calloc s nmemb size fuel = some (r, s3)) :
    good_state s3 ∧ ∀ q, r = some q → q % 32 = 8 := by
  unfold mm_calloc at h
  rcases hmal : mm_malloc s (nmemb * size) fuel with _ | rs <;> rw [hmal] at h
  · simp at h
  · obtain ⟨r0, s1⟩ := rs
    have hmg := mm_malloc_good s _ fuel hg r0 s1 hmal
    rcases r0 with _ | pl
    · simp at h
      obtain ⟨h1, h2⟩ := h
      rw [← h2]
      refine ⟨hmg.1, fun q hq => ?_⟩
      rw [← h1] at hq
      simp at hq
    · simp at h
      obtain ⟨h1, h2⟩ := h
      rw [← h2]
      refine ⟨⟨hmg.1.1, hmg.1.2.1, hmg.1.2.2.1,
        good_mem_memset _ _ hmg.1.2.2.2 _⟩, fun q hq => ?_⟩
      rw [← h1] at hq
      simp at hq
      rw [← hq]
      exact hmg.2 pl rfl

/-- the fresh zero memory satisfies the invariant -/
theorem good_mem_nil : good_mem [] := fun _ => rfl

/-- mm_init establishes the invariant -/
theorem mm_init_good (dstart dcap : Nat) (ap : AllocationPolicy) :
    good_state (mm_init dstart dcap ap) := by
  unfold mm_init
  simp only []
  rcases hds : ds_sbrk
      { mem := [], ds_start := dstart, ds_brk := dstart, ds_cap := dcap,
        heap_start := 0, heap_end := 0, next_block := none, policy := ap }
      (Int.ofNat CHUNKSIZE) with _ | t
  · simp only []
    refine ⟨by show (dstart / BS + 1) * BS % 32 = 0; unfold BS; omega,
      by show (dstart - TYPE_SIZE) / BS * BS % 32 = 0; unfold BS TYPE_SIZE; omega,
      by intro c hc; simp at hc, ?_⟩
    have hdiff : ((dstart - TYPE_SIZE) / BS * BS
        - (dstart / BS + 1) * BS) % 32 = 0 := by
      unfold BS TYPE_SIZE
      omega
    refine good_mem_put_pack _ _ _ _ ?_ (by decide) (by decide)
    refine good_mem_put_pack _ _ _ _ ?_ hdiff (by decide)
    refine good_mem_put_pack _ _ _ _ ?_ hdiff (by decide)
    exact good_mem_put_pack _ _ _ _ good_mem_nil (by decide) (by decide)
  · obtain ⟨hdm, hdhs, hdhe, hdnb, hdpol, hdss, hdsc⟩ := ds_sbrk_frame _ _ t hds
    simp only []
    refine ⟨by show (t.ds_start / BS + 1) * BS % 32 = 0; unfold BS; omega,
      by show (t.ds_brk - TYPE_SIZE) / BS * BS % 32 = 0; unfold BS TYPE_SIZE; omega,
      ?_, ?_⟩
    · intro c hc
      simp only [] at hc
      rw [hdnb] at hc
      simp at hc
    · have hdiff : ((t.ds_brk - TYPE_SIZE) / BS * BS
          - (t.ds_start / BS + 1) * BS) % 32 = 0 := by
        unfold BS TYPE_SIZE
        omega
      refine good_mem_put_pack _ _ _ _ ?_ (by decide) (by decide)
      refine good_mem_put_pack _ _ _ _ ?_ hdiff (by decide)
      refine good_mem_put_pack _ _ _ _ ?_ hdiff (by decide)
      refine good_mem_put_pack _ _ _ _ ?_ (by decide) (by decide)
      rw [hdm]
      exact good_mem_nil

/-- C9: the alignment invariant good_state is established by mm_init and
    preserved by every public operation, and in any state satisfying it
    every non-null payload pointer returned by allocate (and hence by
    zero-allocate and by resize, whose input pointers are themselves such
    payloads) lies at address congruent to 8 modulo 32 - so it is 8-byte
    aligned but never 16-byte or 32-byte aligned. -/
theorem c9_payload_pointer_alignment :
    (∀ dstart dcap ap, good_state (mm_init dstart dcap ap))
  ∧ (∀ s size fuel r s1, good_state s → mm_malloc s size fuel = some (r, s1) →
      good_state s1 ∧ ∀ p, r = some p →
        p % 32 = 8 ∧ p % 16 = 8 ∧ p % 8 = 0 ∧ p % 16 ≠ 0 ∧ p % 32 ≠ 0)
  ∧ (∀ s n m fuel r s1, good_state s → mm_calloc s n m fuel = some (r, s1) →
      good_state s1 ∧ ∀ p, r = some p → p % 32 = 8)
  ∧ (∀ s q size fuel r s1, good_state s → (∀ x, q = some x → x % 32 = 8) →
      mm_realloc s q size fuel = some (r, s1) →
      good_state s1 ∧ ∀ p, r = some p → p % 32 = 8)
  ∧ (∀ s q, good_state s → good_state (mm_free s q)) := by
  refine ⟨mm_init_good,
    ?_,
    fun s n m fuel r s1 hg h => mm_calloc_good s n m fuel hg r s1 h,
    fun s q size fuel r s1 hg hq h => mm_realloc_good s q size fuel hg hq r s1 h,
    fun s q hg => mm_free_good s q hg⟩
  intro s size fuel r s1 hg h
  have hmg := mm_malloc_good s size fuel hg r s1 h
  refine ⟨hmg.1, fun p hp => ?_⟩
  have := hmg.2 p hp
  omega

/-- the heap after the witness allocation for C9 -/
def c9_wM : MMState := ((mm_malloc trace_c2_s0 16 100).getD (none, trace_c2_s0)).2

/-- witness for C9: the fresh first-fit heap and allocate(16), which
    returns payload pointer 40 = 32 + 8 -/
theorem c9_payload_pointer_alignment_witness :
    good_state trace_c2_s0
  ∧ mm_malloc trace_c2_s0 16 100 = some (some 40, c9_wM)
  ∧ (good_state c9_wM ∧ ∀ p, (some 40 : Option Nat) = some p →
      p % 32 = 8 ∧ p % 16 = 8 ∧ p % 8 = 0 ∧ p % 16 ≠ 0 ∧ p % 32 ≠ 0) :=
  ⟨mm_init_good 0 4096 AllocationPolicy.ap_FirstFit, rfl,
    c9_payload_pointer_alignment.2.1 trace_c2_s0 16 100 (some 40) c9_wM
      (mm_init_good 0 4096 AllocationPolicy.ap_FirstFit) rfl⟩
